import Mathlib

/-!
Verification development for the file-import subsystem of the viewer
(importerfiles, importer orchestrator, and the OBJ format importer).

The JavaScript sources are shallowly embedded as executable Lean
definitions: mutable objects become explicit state records, JS Map
becomes an insertion-ordered association list, JS numbers become
Option Int (parseInt, with none standing for NaN) and Option Rat
(parseFloat, with none standing for NaN), and nullable references
become Option.
-/

namespace O3DV

/-- Insertion-ordered association-list lookup, modelling JS Map.get
(none models undefined). -/
def mapGet {α β : Type} [DecidableEq α] : List (α × β) → α → Option β
  | [], _ => none
  | (k, v) :: rest, key => if k = key then some v else mapGet rest key

/-- Insertion-ordered association-list update, modelling JS Map.set:
overwrites the value in place when the key exists, otherwise appends. -/
def mapSet {α β : Type} [DecidableEq α] : List (α × β) → α → β → List (α × β)
  | [], key, v => [(key, v)]
  | (k, w) :: rest, key, v =>
    if k = key then (key, v) :: rest else (k, w) :: mapSet rest key v

/-- Lower-casing, modelling the JS toLowerCase on the ASCII names this
repository compares (reimplemented by structural recursion over the
character list so that proofs can evaluate it). -/
def toLowerStr (s : String) : String := (s.toList.map Char.toLower).asString

/-- Split a character list at every character satisfying p, keeping
empty fields (JS String.split semantics). -/
def splitCharsBy (p : Char → Bool) : List Char → List (List Char)
  | [] => [[]]
  | c :: rest =>
    let r := splitCharsBy p rest
    if p c then [] :: r else (c :: r.headD []) :: r.tail

/-- JS String.split on a single separator character. -/
def splitOnChar (sep : Char) (s : String) : List String :=
  (splitCharsBy (fun c => c = sep) s.toList).map List.asString

/-- Whether the first character of the string is c (JS s[0] === c). -/
def startsWithChar (c : Char) (s : String) : Bool :=
  match s.toList with
  | [] => false
  | a :: _ => a = c

/-- Trim leading and trailing whitespace. -/
def trimStr (s : String) : String :=
  (((s.toList.dropWhile (fun c => c.isWhitespace)).reverse.dropWhile
    (fun c => c.isWhitespace)).reverse).asString

/-- Value of a list of decimal digit characters. -/
def digitsVal (cs : List Char) : Nat :=
  cs.foldl (fun a c => a * 10 + (c.toNat - '0'.toNat)) 0

/-- Models JavaScript parseInt(s, 10): optional leading whitespace and sign,
then the longest prefix of decimal digits; none models NaN (no digits). -/
def parseInt10 (s : String) : Option Int :=
  let cs := s.toList.dropWhile (fun c => c.isWhitespace)
  let signAndRest : Int × List Char :=
    match cs with
    | '-' :: rest => (-1, rest)
    | '+' :: rest => (1, rest)
    | _ => (1, cs)
  let ds := signAndRest.2.takeWhile (fun c => c.isDigit)
  if ds.isEmpty then none else some (signAndRest.1 * (digitsVal ds : Int))

/-- An exact JS number as an unnormalized fraction with a
power-of-ten denominator, as produced by decimal parsing. It is kept
unnormalized so that every arithmetic step the embedded code performs
is kernel-computable; no verified claim compares numbers produced by
different token spellings. -/
structure JsFloat where
  num : Int
  den : Nat := 1
deriving DecidableEq, Inhabited

/-- The number zero. -/
def JsFloat.zero : JsFloat := { num := 0 }

/-- The number one. -/
def JsFloat.one : JsFloat := { num := 1 }

/-- Division by a positive natural constant (the ns keyword divides by
1000). -/
def JsFloat.divNat (v : JsFloat) (n : Nat) : JsFloat :=
  { num := v.num, den := v.den * n }

/-- One minus the value (the tr keyword stores 1 - v). -/
def JsFloat.oneSub (v : JsFloat) : JsFloat :=
  { num := (v.den : Int) - v.num, den := v.den }

/-- Whether the value is smaller than one. -/
def JsFloat.ltOne (v : JsFloat) : Bool :=
  decide (v.num < (v.den : Int))

/-- Models JavaScript parseFloat on the decimal literals this repository
feeds it (optional sign, integer part, optional fractional part); none
models NaN. No verified claim inspects the numeric value of a parsed
float, so exponent forms are not needed. -/
def parseFloatJs (s : String) : Option JsFloat :=
  let cs := s.toList.dropWhile (fun c => c.isWhitespace)
  let signAndRest : Int × List Char :=
    match cs with
    | '-' :: rest => (-1, rest)
    | '+' :: rest => (1, rest)
    | _ => (1, cs)
  let intDs := signAndRest.2.takeWhile (fun c => c.isDigit)
  let rest := signAndRest.2.dropWhile (fun c => c.isDigit)
  let fracDs : List Char :=
    match rest with
    | '.' :: rest2 => rest2.takeWhile (fun c => c.isDigit)
    | _ => []
  if intDs.isEmpty ∧ fracDs.isEmpty then none
  else
    some { num := signAndRest.1 *
             ((digitsVal intDs * 10 ^ fracDs.length + digitsVal fracDs : Nat) : Int)
           den := 10 ^ fracDs.length }

/-- Modelled from the spec: fileutils.GetFileName (the io/fileutils.js
module is not among the analysed sources) returns the base name of a
path, i.e. the part after the last slash or backslash. -/
def GetFileName (filePath : String) : String :=
  (filePath.toList.foldl
    (fun acc c => if c = '/' ∨ c = '\\' then [] else acc ++ [c]) []).asString

/-- Modelled from the spec: fileutils.GetFileExtension returns the
lower-cased part of the base name after its last dot, or the empty
string when the base name has no dot. -/
def GetFileExtension (filePath : String) : String :=
  let fileName := GetFileName filePath
  if fileName.toList.contains '.' then
    toLowerStr ((fileName.toList.foldl (fun acc c => if c = '.' then [] else acc ++ [c]) []).asString)
  else ""

/-- FileSource enumeration from io/fileutils.js. -/
inductive FileSource where
  | url
  | file
  | decompressed
deriving DecidableEq

/-- Data carried by a file entry: a URL string, an opaque local file
handle, or a loaded buffer (abstracted as its decoded lines). -/
inductive FileData where
  | urlStr (s : String)
  | fileHandle (s : String)
  | buffer (ls : List String)
deriving DecidableEq

/-- InputFile from importerfiles.js. -/
structure InputFile where
  name : String
  source : FileSource
  data : Option FileData
deriving DecidableEq

/-- ImporterFile from importerfiles.js. The constructor body is embedded
in ImporterFile.make below. -/
structure ImporterFile where
  name : String
  extension : String
  source : FileSource
  data : Option FileData
  content : Option FileData
deriving DecidableEq

/-- The ImporterFile constructor: normalizes the name, derives the
extension, and sets content directly from data (the source line reads
"this.content = data; // Set content directly from data"). -/
def ImporterFile.make (name : String) (source : FileSource) (data : Option FileData) :
    ImporterFile :=
  { name := GetFileName name
    extension := GetFileExtension name
    source := source
    data := data
    content := data }

/-- ImporterFile.SetContent. -/
def ImporterFile.SetContent (f : ImporterFile) (content : FileData) : ImporterFile :=
  { f with content := some content }

/-- ImporterFileList from importerfiles.js, an ordered collection of
ImporterFile. -/
structure ImporterFileList where
  files : List ImporterFile := []
deriving DecidableEq

/-- ImporterFileList.FindFileByPath: case-insensitive match of the base
name of the argument against the stored names. -/
def ImporterFileList.FindFileByPath (l : ImporterFileList) (filePath : String) :
    Option ImporterFile :=
  l.files.find? (fun f => toLowerStr f.name = toLowerStr (GetFileName filePath))

/-- ImporterFileList.ContainsFileByPath. -/
def ImporterFileList.ContainsFileByPath (l : ImporterFileList) (filePath : String) : Bool :=
  (l.FindFileByPath filePath).isSome

/-- ImporterFileList.FillFromInputFiles: resets the collection and wraps
each input as an ImporterFile. -/
def FillFromInputFiles (inputFiles : List InputFile) : ImporterFileList :=
  { files := inputFiles.map (fun i => ImporterFile.make i.name i.source i.data) }

/-- ImporterFileList.ExtendFromFileList: appends each file of the other
list whose name is not already present (checked against the growing
collection, case-insensitively). -/
def ImporterFileList.ExtendFromFileList (l fileList : ImporterFileList) : ImporterFileList :=
  { files :=
      fileList.files.foldl
        (fun fs file =>
          if (ImporterFileList.mk fs).ContainsFileByPath file.name then fs else fs ++ [file])
        l.files }

/-- ImporterFileList.AddFile: unconditional append. -/
def ImporterFileList.AddFile (l : ImporterFileList) (file : ImporterFile) : ImporterFileList :=
  { files := l.files ++ [file] }

/-- ImporterFileList.IsOnlyUrlSource. -/
def ImporterFileList.IsOnlyUrlSource (l : ImporterFileList) : Bool :=
  if l.files.isEmpty then false
  else l.files.all (fun f => f.source = FileSource.url ∨ f.source = FileSource.decompressed)

/-- The load decision taken by ImporterFileList.GetFileContent for one
file: which external loader, if any, is triggered for it. -/
inductive LoadAction where
  | noLoad
  | loadUrl (data : Option FileData)
  | loadFile (data : Option FileData)
deriving DecidableEq

/-- ImporterFileList.GetFileContent, reduced to its control decision:
a file whose content is non-null triggers no load; otherwise the
source selects RequestUrl, ReadFile, or nothing. -/
def GetFileContentAction (file : ImporterFile) : LoadAction :=
  if file.content.isSome then LoadAction.noLoad
  else
    match file.source with
    | FileSource.url => LoadAction.loadUrl file.data
    | FileSource.file => LoadAction.loadFile file.data
    | _ => LoadAction.noLoad

/-- Case-insensitive name uniqueness of a file collection: the invariant
claimed for ImporterFileList membership. -/
def uniqueNamesCI : List ImporterFile → Bool
  | [] => true
  | f :: rest =>
    (!rest.any (fun g => toLowerStr g.name = toLowerStr f.name)) && uniqueNamesCI rest

/-- Importer.HasImportableFile, with the registration table abstracted
to its extension predicate (extension matches some registered importer). -/
def HasImportableFile (canImport : String → Bool) (l : ImporterFileList) : Bool :=
  l.files.any (fun f => canImport f.extension)

/-- Importer.LoadFiles, reduced to its file-list reconciliation: build a
candidate list from the inputs; replace the current list by it unless
the candidate has no importable file but supplies a previously missing
name, in which case it is merged into the current list. -/
def LoadFilesList (canImport : String → Bool) (missingFiles : List String)
    (fileList : ImporterFileList) (inputFiles : List InputFile) : ImporterFileList :=
  let newFileList := FillFromInputFiles inputFiles
  if HasImportableFile canImport newFileList then newFileList
  else if missingFiles.any (fun m => newFileList.ContainsFileByPath m) then
    fileList.ExtendFromFileList newFileList
  else newFileList

/-- Importer.DecompressArchives: every file with extension zip is fed to
the archive decoder (an external collaborator, passed here as a
function returning named buffers), and each produced entry is appended
through AddFile as a Decompressed file with pre-set content. -/
def DecompressArchives (unzip : Option FileData → List (String × FileData))
    (fileList : ImporterFileList) : ImporterFileList :=
  let archives := fileList.files.filter (fun f => f.extension = "zip")
  archives.foldl
    (fun fl archiveFile =>
      (unzip archiveFile.content).foldl
        (fun fl e => fl.AddFile ((ImporterFile.make e.1 FileSource.decompressed none).SetContent e.2))
        fl)
    fileList

/-- ImporterFileAccessor from importer.js, together with the used-files
and missing-files bookkeeping its callback (installed by
Importer.ImportLoadedMainFile) writes, and an invocation counter for
the underlying callback. -/
structure ImporterFileAccessor where
  fileBuffers : List (String × Option FileData) := []
  usedFiles : List String := []
  missingFiles : List String := []
  callbackCalls : Nat := 0
deriving DecidableEq

/-- The getBufferCallback closure Importer.ImportLoadedMainFile installs:
looks the name up in the orchestrator file list and attributes it to
usedFiles or missingFiles. -/
def getBufferCallback (fileList : ImporterFileList) (a : ImporterFileAccessor)
    (fileName : String) : Option FileData × ImporterFileAccessor :=
  let a := { a with callbackCalls := a.callbackCalls + 1 }
  match fileList.FindFileByPath fileName with
  | none => (none, { a with missingFiles := a.missingFiles ++ [fileName] })
  | some file =>
    match file.content with
    | none => (none, { a with missingFiles := a.missingFiles ++ [fileName] })
    | some c => (some c, { a with usedFiles := a.usedFiles ++ [fileName] })

/-- ImporterFileAccessor.GetFileBuffer: normalize the path to a base
name, serve from the cache when present, otherwise invoke the callback
and cache its result (even a null one). -/
def GetFileBuffer (fileList : ImporterFileList) (a : ImporterFileAccessor)
    (filePath : String) : Option FileData × ImporterFileAccessor :=
  let fileName := GetFileName filePath
  match mapGet a.fileBuffers fileName with
  | some buf => (buf, a)
  | none =>
    let r := getBufferCallback fileList a fileName
    (r.1, { r.2 with fileBuffers := mapSet r.2.fileBuffers fileName r.1 })

/-- A sequence of GetFileBuffer requests against one accessor. -/
def requestAll (fileList : ImporterFileList) (a : ImporterFileAccessor)
    (paths : List String) : ImporterFileAccessor :=
  paths.foldl (fun a p => (GetFileBuffer fileList a p).2) a

/-! The OBJ importer (importerobj.js). JS numbers parsed from the file
are kept as Option Rat (none models NaN); indices are Option Int. -/

/-- Coord3D: a 3D coordinate of parsed float components. -/
structure Coord3D where
  x : Option JsFloat := some JsFloat.zero
  y : Option JsFloat := some JsFloat.zero
  z : Option JsFloat := some JsFloat.zero
deriving DecidableEq, Inhabited

/-- Coord2D: a 2D coordinate of parsed float components. -/
structure Coord2D where
  x : Option JsFloat := some JsFloat.zero
  y : Option JsFloat := some JsFloat.zero
deriving DecidableEq, Inhabited

/-- Modelled from the spec: RGBColor carries three color components
(model/color.js is not among the analysed sources; no verified claim
inspects component values, so the float components are kept as parsed). -/
structure RGBColor where
  r : Option JsFloat := some JsFloat.zero
  g : Option JsFloat := some JsFloat.zero
  b : Option JsFloat := some JsFloat.zero
deriving DecidableEq, Inhabited

/-- Modelled from the spec: RGBColorFromFloatComponents packages three
float components as a color. -/
def RGBColorFromFloatComponents (r g b : Option JsFloat) : RGBColor :=
  { r := r, g := g, b := b }

/-- CreateColor from importerobj.js. -/
def CreateColor (r g b : String) : RGBColor :=
  RGBColorFromFloatComponents (parseFloatJs r) (parseFloatJs g) (parseFloatJs b)

/-- Triangle from model/triangle.js, with the optional per-corner
attribute triples and material index the OBJ importer sets on it. -/
structure Triangle where
  v0 : Nat
  v1 : Nat
  v2 : Nat
  colors : Option (Nat × Nat × Nat) := none
  normals : Option (Nat × Nat × Nat) := none
  uvs : Option (Nat × Nat × Nat) := none
  mat : Option Nat := none
deriving DecidableEq, Inhabited

/-- Triangle.SetVertexColors. -/
def Triangle.SetVertexColors (t : Triangle) (c0 c1 c2 : Nat) : Triangle :=
  { t with colors := some (c0, c1, c2) }

/-- Triangle.SetNormals. -/
def Triangle.SetNormals (t : Triangle) (n0 n1 n2 : Nat) : Triangle :=
  { t with normals := some (n0, n1, n2) }

/-- Triangle.SetTextureUVs. -/
def Triangle.SetTextureUVs (t : Triangle) (u0 u1 u2 : Nat) : Triangle :=
  { t with uvs := some (u0, u1, u2) }

/-- Line from model/line.js: an ordered list of mesh-local vertex
indices with an optional material index. -/
structure Line where
  vertices : List Nat
  mat : Option Nat := none
deriving DecidableEq, Inhabited

/-- Modelled from the spec: Mesh (model/mesh.js is not among the
analysed sources) holds append-only attribute buffers plus triangle
and line lists; each Add returns the index of the appended element. -/
structure Mesh where
  name : String := ""
  vertices : List Coord3D := []
  vertexColors : List RGBColor := []
  normals : List Coord3D := []
  uvs : List Coord2D := []
  triangles : List Triangle := []
  lines : List Line := []
deriving DecidableEq, Inhabited

/-- Mesh.AddVertex: append, returning the new index. -/
def Mesh.AddVertex (m : Mesh) (v : Coord3D) : Nat × Mesh :=
  (m.vertices.length, { m with vertices := m.vertices ++ [v] })

/-- Mesh.AddVertexColor. -/
def Mesh.AddVertexColor (m : Mesh) (c : RGBColor) : Nat × Mesh :=
  (m.vertexColors.length, { m with vertexColors := m.vertexColors ++ [c] })

/-- Mesh.AddNormal. -/
def Mesh.AddNormal (m : Mesh) (v : Coord3D) : Nat × Mesh :=
  (m.normals.length, { m with normals := m.normals ++ [v] })

/-- Mesh.AddTextureUV. -/
def Mesh.AddTextureUV (m : Mesh) (v : Coord2D) : Nat × Mesh :=
  (m.uvs.length, { m with uvs := m.uvs ++ [v] })

/-- ObjMeshConverter from importerobj.js: the mesh under construction
together with its four global-to-mesh-local index maps. -/
structure ObjMeshConverter where
  mesh : Mesh := {}
  globalToMeshVertices : List (Nat × Nat) := []
  globalToMeshVertexColors : List (Nat × Nat) := []
  globalToMeshNormals : List (Nat × Nat) := []
  globalToMeshUvs : List (Nat × Nat) := []
deriving DecidableEq, Inhabited

/-- ObjMeshConverter.GetMeshIndex: null for NaN or out-of-range global
indices; otherwise look the global index up in the map, or on first
reference copy the global value into the mesh through the adder and
record the new mapping. -/
def GetMeshIndex {α : Type} [Inhabited α] (globalIndex : Option Int)
    (globalValueArray : List α) (globalToMeshIndices : List (Nat × Nat))
    (valueAdderFunc : α → Mesh → Nat × Mesh) (mesh : Mesh) :
    Option Nat × List (Nat × Nat) × Mesh :=
  match globalIndex with
  | none => (none, globalToMeshIndices, mesh)
  | some gi =>
    if gi < 0 ∨ (globalValueArray.length : Int) ≤ gi then (none, globalToMeshIndices, mesh)
    else
      match mapGet globalToMeshIndices gi.toNat with
      | some meshIndex => (some meshIndex, globalToMeshIndices, mesh)
      | none =>
        let globalValue := globalValueArray.getD gi.toNat default
        let r := valueAdderFunc globalValue mesh
        (some r.1, mapSet globalToMeshIndices gi.toNat r.1, r.2)

/-- ObjMeshConverter.AddVertex. -/
def ObjMeshConverter.AddVertex (c : ObjMeshConverter) (globalIndex : Option Int)
    (globalVertices : List Coord3D) : Option Nat × ObjMeshConverter :=
  let r := GetMeshIndex globalIndex globalVertices c.globalToMeshVertices
    (fun v m => m.AddVertex v) c.mesh
  (r.1, { c with globalToMeshVertices := r.2.1, mesh := r.2.2 })

/-- ObjMeshConverter.AddVertexColor. -/
def ObjMeshConverter.AddVertexColor (c : ObjMeshConverter) (globalIndex : Option Int)
    (globalVertexColors : List RGBColor) : Option Nat × ObjMeshConverter :=
  let r := GetMeshIndex globalIndex globalVertexColors c.globalToMeshVertexColors
    (fun v m => m.AddVertexColor v) c.mesh
  (r.1, { c with globalToMeshVertexColors := r.2.1, mesh := r.2.2 })

/-- ObjMeshConverter.AddNormal. -/
def ObjMeshConverter.AddNormal (c : ObjMeshConverter) (globalIndex : Option Int)
    (globalNormals : List Coord3D) : Option Nat × ObjMeshConverter :=
  let r := GetMeshIndex globalIndex globalNormals c.globalToMeshNormals
    (fun v m => m.AddNormal v) c.mesh
  (r.1, { c with globalToMeshNormals := r.2.1, mesh := r.2.2 })

/-- ObjMeshConverter.AddUV. -/
def ObjMeshConverter.AddUV (c : ObjMeshConverter) (globalIndex : Option Int)
    (globalUvs : List Coord2D) : Option Nat × ObjMeshConverter :=
  let r := GetMeshIndex globalIndex globalUvs c.globalToMeshUvs
    (fun v m => m.AddTextureUV v) c.mesh
  (r.1, { c with globalToMeshUvs := r.2.1, mesh := r.2.2 })

/-- ObjMeshConverter.AddLine. -/
def ObjMeshConverter.AddLine (c : ObjMeshConverter) (line : Line) : ObjMeshConverter :=
  { c with mesh := { c.mesh with lines := c.mesh.lines ++ [line] } }

/-- ObjMeshConverter.AddTriangle. -/
def ObjMeshConverter.AddTriangle (c : ObjMeshConverter) (t : Triangle) : ObjMeshConverter :=
  { c with mesh := { c.mesh with triangles := c.mesh.triangles ++ [t] } }

/-- Modelled from the spec: TextureMap (model/material.js is not among
the analysed sources): a texture name, its fetched buffer, and offset
and scale modifiers. -/
structure TextureMap where
  name : String := ""
  buffer : Option FileData := none
  offsetX : Option JsFloat := some JsFloat.zero
  offsetY : Option JsFloat := some JsFloat.zero
  scaleX : Option JsFloat := some JsFloat.one
  scaleY : Option JsFloat := some JsFloat.one
deriving DecidableEq, Inhabited

/-- Modelled from the spec: PhongMaterial (model/material.js is not
among the analysed sources): the material fields the OBJ importer
writes. No verified claim inspects the default field values. -/
structure PhongMaterial where
  name : String := ""
  ambient : RGBColor := {}
  color : RGBColor := {}
  specular : RGBColor := {}
  shininess : Option JsFloat := some JsFloat.zero
  opacity : Option JsFloat := some JsFloat.one
  transparent : Bool := false
  diffuseMap : Option TextureMap := none
  specularMap : Option TextureMap := none
  bumpMap : Option TextureMap := none
deriving DecidableEq, Inhabited

/-- Modelled from the spec: importerutils.UpdateMaterialTransparency
recomputes the transparency flag from the resulting opacity value. -/
def UpdateMaterialTransparency (m : PhongMaterial) : PhongMaterial :=
  { m with transparent := match m.opacity with
    | some v => v.ltOne
    | none => false }

/-- The OBJ parser working state after ResetContent: the four global
attribute sequences, the current mesh-converter, material and
material-index pointers, the name maps, and the model content built so
far (mesh converters in creation order, materials in creation order),
plus the error flag of ImporterBase.SetError (importerbase.js is not
among the analysed sources; the spec describes it as flagging the
parse as failed). The current mesh converter and the current material
are JS object references; they are embedded as indices into the meshes
and materials lists, which is where those objects live. -/
structure ObjState where
  globalVertices : List Coord3D := []
  globalVertexColors : List RGBColor := []
  globalNormals : List Coord3D := []
  globalUvs : List Coord2D := []
  currentMeshConverter : Option Nat := none
  currentMaterial : Option Nat := none
  currentMaterialIndex : Option Nat := none
  meshNameToConverter : List (String × Nat) := []
  materialNameToIndex : List (String × Nat) := []
  meshes : List ObjMeshConverter := []
  materials : List PhongMaterial := []
  error : Bool := false
deriving DecidableEq, Inhabited

/-- The state ResetContent produces. -/
def ObjState.reset : ObjState := {}

/-- The converter object the current-mesh pointer designates, if any. -/
def currentConv (s : ObjState) : Option ObjMeshConverter :=
  s.currentMeshConverter.bind (fun i => s.meshes.get? i)

/-- ImporterObj.AddNewMesh: resume the existing converter of that name,
or create a mesh, add it to the model, and register its converter. -/
def AddNewMesh (s : ObjState) (name : String) : ObjState :=
  match mapGet s.meshNameToConverter name with
  | some i => { s with currentMeshConverter := some i }
  | none =>
    { s with
      meshes := s.meshes ++ [{ mesh := { name := name } }]
      currentMeshConverter := some s.meshes.length
      meshNameToConverter := mapSet s.meshNameToConverter name s.meshes.length }

/-- The implicit mesh creation at the head of ProcessFaceCommand and
ProcessLineCommand: when no current mesh converter exists, AddNewMesh
with the empty name. -/
def ensureCurrentMesh (s : ObjState) : ObjState :=
  if s.currentMeshConverter.isNone then AddNewMesh s "" else s

/-- ImporterObj.GetRelativeIndex: a positive index resolves to index-1,
any other (zero, negative, or NaN) to count+index. -/
def GetRelativeIndex (index : Option Int) (count : Nat) : Option Int :=
  match index with
  | none => none
  | some i => if 0 < i then some (i - 1) else some ((count : Int) + i)

/-- The four reference lists ProcessFaceCommand collects in its first
loop over the face parameters. -/
structure FaceRefs where
  vertices : List (Option Int) := []
  colors : List (Option Int) := []
  normals : List (Option Int) := []
  uvs : List (Option Int) := []
deriving DecidableEq, Inhabited

/-- The first loop of ProcessFaceCommand: split each parameter on
slashes, resolve the vertex reference (and, when the global color
sequence is aligned with the vertex sequence, an implicit color
reference), and resolve uv and normal references when their slots are
present and non-empty. -/
def collectFaceRefs (s : ObjState) : List String → FaceRefs
  | [] => {}
  | p :: rest =>
    let r := collectFaceRefs s rest
    let vertexParams := splitOnChar '/' p
    let r := { r with vertices :=
      GetRelativeIndex (parseInt10 (vertexParams.headD "")) s.globalVertices.length :: r.vertices }
    let r :=
      if s.globalVertices.length = s.globalVertexColors.length then
        { r with colors :=
          GetRelativeIndex (parseInt10 (vertexParams.headD "")) s.globalVertices.length :: r.colors }
      else r
    let r :=
      if 1 < vertexParams.length ∧ vertexParams.getD 1 "" ≠ "" then
        { r with uvs :=
          GetRelativeIndex (parseInt10 (vertexParams.getD 1 "")) s.globalUvs.length :: r.uvs }
      else r
    if 2 < vertexParams.length ∧ vertexParams.getD 2 "" ≠ "" then
      { r with normals :=
        GetRelativeIndex (parseInt10 (vertexParams.getD 2 "")) s.globalNormals.length :: r.normals }
    else r

/-- One corner triple of a face stage: the three Add calls for fan
corners 0, i+1 and i+2 happen first, then the null check. -/
def addTriple (add : ObjMeshConverter → Option Int → Option Nat × ObjMeshConverter)
    (rs : List (Option Int)) (i : Nat) (conv : ObjMeshConverter) :
    Option (Nat × Nat × Nat) × ObjMeshConverter :=
  let r0 := add conv (rs.getD 0 none)
  let r1 := add r0.2 (rs.getD (i + 1) none)
  let r2 := add r1.2 (rs.getD (i + 2) none)
  match r0.1, r1.1, r2.1 with
  | some a, some b, some c => (some (a, b, c), r2.2)
  | _, _, _ => (none, r2.2)

/-- Tag a triangle with the current material index when one is set
(the source assigns triangle.mat only when currentMaterialIndex is not
null). -/
def applyMaterialIndex (matIdx : Option Nat) (t : Triangle) : Triangle :=
  match matIdx with
  | some mi => { t with mat := some mi }
  | none => t

/-- One optional attribute stage of a fan-loop iteration: when this
attribute kind is attached (its reference count equals the vertex
reference count), add the three corner attributes through the converter
(null when one resolves out of range, which in the source sets the
error and breaks) and attach the resulting triple to the triangle;
otherwise pass the triangle through unchanged. -/
def faceStage (add : ObjMeshConverter → Option Int → Option Nat × ObjMeshConverter)
    (attach : Triangle → Nat × Nat × Nat → Triangle) (run : Prop) [Decidable run]
    (rs : List (Option Int)) (i : Nat) (triangle : Triangle) (conv : ObjMeshConverter) :
    Option Triangle × ObjMeshConverter :=
  if run then
    match addTriple add rs i conv with
    | (none, conv) => (none, conv)
    | (some tr, conv) => (some (attach triangle tr), conv)
  else (some triangle, conv)

/-- The fan-triangulation loop of ProcessFaceCommand over the loop
counter values (0, 1, ..., k-3 when run on List.range (k-2)); the
returned flag records whether SetError was reached, which in the
source breaks out of the loop. -/
def faceLoop (gv : List Coord3D) (gc : List RGBColor) (gn : List Coord3D)
    (gu : List Coord2D) (matIdx : Option Nat) (refs : FaceRefs) :
    List Nat → ObjMeshConverter → ObjMeshConverter × Bool
  | [], conv => (conv, false)
  | i :: rest, conv =>
    match addTriple (fun c g => c.AddVertex g gv) refs.vertices i conv with
    | (none, conv) => (conv, true)
    | (some vtr, conv) =>
      let triangle : Triangle := { v0 := vtr.1, v1 := vtr.2.1, v2 := vtr.2.2 }
      match faceStage (fun c g => c.AddVertexColor g gc)
          (fun t tr => t.SetVertexColors tr.1 tr.2.1 tr.2.2)
          (refs.colors.length = refs.vertices.length) refs.colors i triangle conv with
      | (none, conv) => (conv, true)
      | (some triangle, conv) =>
        match faceStage (fun c g => c.AddNormal g gn)
            (fun t tr => t.SetNormals tr.1 tr.2.1 tr.2.2)
            (refs.normals.length = refs.vertices.length) refs.normals i triangle conv with
        | (none, conv) => (conv, true)
        | (some triangle, conv) =>
          match faceStage (fun c g => c.AddUV g gu)
              (fun t tr => t.SetTextureUVs tr.1 tr.2.1 tr.2.2)
              (refs.uvs.length = refs.vertices.length) refs.uvs i triangle conv with
          | (none, conv) => (conv, true)
          | (some triangle, conv) =>
            faceLoop gv gc gn gu matIdx refs rest
              (conv.AddTriangle (applyMaterialIndex matIdx triangle))

/-- ImporterObj.ProcessFaceCommand. -/
def ProcessFaceCommand (s0 : ObjState) (parameters : List String) : ObjState :=
  let s := ensureCurrentMesh s0
  match s.currentMeshConverter with
  | none => s
  | some ci =>
    let conv := s.meshes.getD ci default
    let refs := collectFaceRefs s parameters
    let r := faceLoop s.globalVertices s.globalVertexColors s.globalNormals s.globalUvs
      s.currentMaterialIndex refs (List.range (refs.vertices.length - 2)) conv
    { s with meshes := s.meshes.set ci r.1, error := s.error || r.2 }

/-- The vertex-collection loop of ProcessLineCommand: resolve each
parameter, convert it to a mesh-local index, and stop (SetError and
break in the source) at the first failure; the line keeps the vertices
collected before the failure. -/
def lineLoop (gv : List Coord3D) : List String → ObjMeshConverter →
    List Nat × ObjMeshConverter × Bool
  | [], conv => ([], conv, false)
  | p :: rest, conv =>
    let vertexParams := splitOnChar '/' p
    let vertexIndex := GetRelativeIndex (parseInt10 (vertexParams.headD "")) gv.length
    let r := conv.AddVertex vertexIndex gv
    match r.1 with
    | none => ([], r.2, true)
    | some m =>
      let rr := lineLoop gv rest r.2
      (m :: rr.1, rr.2.1, rr.2.2)

/-- Tag a line with the current material index when one is set (the
source assigns line.mat only when currentMaterialIndex is not null). -/
def applyLineMaterialIndex (matIdx : Option Nat) (l : Line) : Line :=
  match matIdx with
  | some mi => { l with mat := some mi }
  | none => l

/-- ImporterObj.ProcessLineCommand: note that the collected line is
added to the mesh even when the loop stopped on an invalid index. -/
def ProcessLineCommand (s0 : ObjState) (parameters : List String) : ObjState :=
  let s := ensureCurrentMesh s0
  match s.currentMeshConverter with
  | none => s
  | some ci =>
    let conv := s.meshes.getD ci default
    let r := lineLoop s.globalVertices parameters conv
    let line := applyLineMaterialIndex s.currentMaterialIndex { vertices := r.1 }
    { s with meshes := s.meshes.set ci (r.2.1.AddLine line), error := s.error || r.2.2 }

/-- Strip a line from its first comment character onward. -/
def stripComment (line : String) : String :=
  (line.toList.takeWhile (fun c => c ≠ '#')).asString

/-- Modelled from the spec: importerutils.ParametersFromLine
(importerutils.js is not among the analysed sources) strips the
comment part and tokenizes the rest on whitespace. -/
def ParametersFromLine (line : String) : List String :=
  ((splitCharsBy (fun c => c.isWhitespace) (stripComment line).toList).filter
    (fun t => t ≠ [])).map List.asString

/-- Modelled from the spec: importerutils.NameFromLine takes the
comment-stripped line after the keyword and trims it. -/
def NameFromLine (line : String) (keywordLength : Nat) : String :=
  trimStr (((stripComment line).toList.drop keywordLength).asString)

/-- ImporterObj.ProcessMeshParameter: the structural keywords. The
returned flag is the handled flag of the source; note that the l
branch falls through without returning true. -/
def ProcessMeshParameter (s : ObjState) (keyword : String) (parameters : List String)
    (line : String) : Bool × ObjState :=
  if keyword = "g" ∨ keyword = "o" then
    if parameters.isEmpty then (true, s)
    else (true, AddNewMesh s (NameFromLine line keyword.length))
  else if keyword = "v" then
    if parameters.length < 3 then (true, s)
    else
      let s := { s with globalVertices := s.globalVertices ++
        [{ x := parseFloatJs (parameters.getD 0 "")
           y := parseFloatJs (parameters.getD 1 "")
           z := parseFloatJs (parameters.getD 2 "") }] }
      if 6 ≤ parameters.length then
        (true, { s with globalVertexColors := s.globalVertexColors ++
          [CreateColor (parameters.getD 3 "") (parameters.getD 4 "") (parameters.getD 5 "")] })
      else (true, s)
  else if keyword = "vn" then
    if parameters.length < 3 then (true, s)
    else (true, { s with globalNormals := s.globalNormals ++
      [{ x := parseFloatJs (parameters.getD 0 "")
         y := parseFloatJs (parameters.getD 1 "")
         z := parseFloatJs (parameters.getD 2 "") }] })
  else if keyword = "vt" then
    if parameters.length < 2 then (true, s)
    else (true, { s with globalUvs := s.globalUvs ++
      [{ x := parseFloatJs (parameters.getD 0 "")
         y := parseFloatJs (parameters.getD 1 "") }] })
  else if keyword = "l" then
    if parameters.length < 2 then (true, s)
    else (false, ProcessLineCommand s parameters)
  else if keyword = "f" then
    if parameters.length < 3 then (true, s)
    else (true, ProcessFaceCommand s parameters)
  else (false, s)

/-- ExtractTextureParameters from ProcessMaterialParameter: scan all
parameters except the trailing file name, starting a new entry at each
dash-prefixed token and appending following tokens to the last entry. -/
def ExtractTextureParameters (parameters : List String) : List (String × List String) :=
  (parameters.dropLast.foldl
    (fun (acc : List (String × List String) × Option String) parameter =>
      if startsWithChar '-' parameter then (mapSet acc.1 parameter [], some parameter)
      else
        match acc.2 with
        | none => acc
        | some lastParameter =>
          (mapSet acc.1 lastParameter ((mapGet acc.1 lastParameter).getD [] ++ [parameter]),
           acc.2))
    ([], none)).1

/-- CreateTexture from ProcessMaterialParameter: the trailing parameter
names the texture, which is fetched through the dependency callback;
dash-o and dash-s modifiers set offset and scale. -/
def CreateTexture (cb : String → Option FileData) (parameters : List String) : TextureMap :=
  let textureName := (parameters.getLast?).getD ""
  let textureBuffer := cb textureName
  let textureParameters := ExtractTextureParameters parameters
  let texture : TextureMap := { name := textureName, buffer := textureBuffer }
  let texture :=
    match mapGet textureParameters "-o" with
    | some offsetParameters =>
      let t := match offsetParameters.get? 0 with
        | some p => { texture with offsetX := parseFloatJs p }
        | none => texture
      match offsetParameters.get? 1 with
      | some p => { t with offsetY := parseFloatJs p }
      | none => t
    | none => texture
  match mapGet textureParameters "-s" with
  | some scaleParameters =>
    let t := match scaleParameters.get? 0 with
      | some p => { texture with scaleX := parseFloatJs p }
      | none => texture
    match scaleParameters.get? 1 with
    | some p => { t with scaleY := parseFloatJs p }
    | none => t
  | none => texture

/-- Apply a mutation to the material the current-material reference
designates (a reference into the model materials list). -/
def updateCurrentMaterial (s : ObjState) (f : PhongMaterial → PhongMaterial) : ObjState :=
  match s.currentMaterial with
  | none => s
  | some i => { s with materials := s.materials.set i (f (s.materials.getD i default)) }

/-- ImporterObj.ProcessMaterialParameter. The mtllib recursion into the
fetched file content is passed in as the recurse argument (the line
processor applied to the fetched lines); the dependency callback cb
returns a fetched buffer as its decoded lines. -/
def ProcessMaterialParameter (cb : String → Option FileData)
    (recurse : ObjState → List String → ObjState) (s : ObjState) (keyword : String)
    (parameters : List String) (line : String) : Bool × ObjState :=
  if keyword = "newmtl" then
    if parameters.isEmpty then (true, s)
    else
      let materialName := NameFromLine line keyword.length
      let materialIndex := s.materials.length
      (true, { s with
        materials := s.materials ++ [{ name := materialName }]
        currentMaterial := some materialIndex
        materialNameToIndex := mapSet s.materialNameToIndex materialName materialIndex })
  else if keyword = "usemtl" then
    if parameters.isEmpty then (true, s)
    else
      let materialName := NameFromLine line keyword.length
      match mapGet s.materialNameToIndex materialName with
      | some idx => (true, { s with currentMaterialIndex := some idx })
      | none => (true, s)
  else if keyword = "mtllib" then
    if parameters.isEmpty then (true, s)
    else
      let fileName := NameFromLine line keyword.length
      match cb fileName with
      | some (FileData.buffer ls) => (true, recurse s ls)
      | some _ => (true, recurse s [])
      | none => (true, s)
  else if keyword = "map_kd" then
    if s.currentMaterial.isNone ∨ parameters.isEmpty then (true, s)
    else (true, updateCurrentMaterial s (fun m =>
      UpdateMaterialTransparency { m with diffuseMap := some (CreateTexture cb parameters) }))
  else if keyword = "map_ks" then
    if s.currentMaterial.isNone ∨ parameters.isEmpty then (true, s)
    else (true, updateCurrentMaterial s (fun m =>
      { m with specularMap := some (CreateTexture cb parameters) }))
  else if keyword = "map_bump" ∨ keyword = "bump" then
    if s.currentMaterial.isNone ∨ parameters.isEmpty then (true, s)
    else (true, updateCurrentMaterial s (fun m =>
      { m with bumpMap := some (CreateTexture cb parameters) }))
  else if keyword = "ka" then
    if s.currentMaterial.isNone ∨ parameters.length < 3 then (true, s)
    else (true, updateCurrentMaterial s (fun m =>
      let c := CreateColor (parameters.getD 0 "") (parameters.getD 1 "") (parameters.getD 2 "")
      { m with ambient := c }))
  else if keyword = "kd" then
    if s.currentMaterial.isNone ∨ parameters.length < 3 then (true, s)
    else (true, updateCurrentMaterial s (fun m =>
      let c := CreateColor (parameters.getD 0 "") (parameters.getD 1 "") (parameters.getD 2 "")
      { m with color := c }))
  else if keyword = "ks" then
    if s.currentMaterial.isNone ∨ parameters.length < 3 then (true, s)
    else (true, updateCurrentMaterial s (fun m =>
      let c := CreateColor (parameters.getD 0 "") (parameters.getD 1 "") (parameters.getD 2 "")
      { m with specular := c }))
  else if keyword = "ns" then
    if s.currentMaterial.isNone ∨ parameters.length < 1 then (true, s)
    else (true, updateCurrentMaterial s (fun m =>
      { m with shininess := (parseFloatJs (parameters.getD 0 "")).map (fun v => v.divNat 1000) }))
  else if keyword = "tr" then
    if s.currentMaterial.isNone ∨ parameters.length < 1 then (true, s)
    else (true, updateCurrentMaterial s (fun m =>
      UpdateMaterialTransparency
        { m with opacity := (parseFloatJs (parameters.getD 0 "")).map (fun v => v.oneSub) }))
  else if keyword = "d" then
    if s.currentMaterial.isNone ∨ parameters.length < 1 then (true, s)
    else (true, updateCurrentMaterial s (fun m =>
      UpdateMaterialTransparency { m with opacity := parseFloatJs (parameters.getD 0 "") }))
  else (false, s)

/-- The line-scanning wrapper shared by ImportContent and the mtllib
recursion: each line is processed only while the parse is not flagged
as failed. -/
def runLinesWith (step : ObjState → String → ObjState) (s : ObjState)
    (ls : List String) : ObjState :=
  ls.foldl (fun s l => if s.error then s else step s l) s

/-- ImporterObj.ProcessLine: skip comment and blank lines, lower-case
the first token as the keyword, try the mesh keywords first and then
the material keywords. The fuel argument only bounds the depth of the
mtllib recursion (the source has no such bound and can recurse
forever on cyclic material libraries); at fuel zero a fetched material
library is not expanded. -/
def ProcessLine (cb : String → Option FileData) : Nat → ObjState → String → ObjState
  | fuel, s, line =>
    let recurse : ObjState → List String → ObjState :=
      match fuel with
      | 0 => fun st _ => st
      | n + 1 => fun st ls => runLinesWith (ProcessLine cb n) st ls
    if startsWithChar '#' line then s
    else
      match ParametersFromLine line with
      | [] => s
      | kw :: parameters =>
        let keyword := toLowerStr kw
        let r := ProcessMeshParameter s keyword parameters line
        if r.1 then r.2
        else (ProcessMaterialParameter cb recurse r.2 keyword parameters line).2

/-- ImporterObj.ImportContent: reset state, then scan all lines with
the error guard. -/
def ImportContent (cb : String → Option FileData) (fuel : Nat)
    (contentLines : List String) : ObjState :=
  runLinesWith (ProcessLine cb fuel) ObjState.reset contentLines

/-- Whether a resolved reference lies in the valid range of a global
sequence of the given length (the in-range test of GetMeshIndex). -/
def inRangeB (g : Option Int) (len : Nat) : Bool :=
  match g with
  | none => false
  | some i => decide (0 ≤ i) && decide (i < (len : Int))

/-- The mesh-local vertex index recorded for a resolved global vertex
reference in a converter. -/
def vlookup (c : ObjMeshConverter) (g : Option Int) : Option Nat :=
  match g with
  | none => none
  | some gi => if gi < 0 then none else mapGet c.globalToMeshVertices gi.toNat

/-- All references a fan iteration i of ProcessFaceCommand touches are
in range: the vertex references at fan corners 0, i+1 and i+2, and,
for each attribute kind whose reference count matches the vertex
reference count (so that the corresponding stage runs), the attribute
references at those corners. -/
def faceStageCond (gv : List Coord3D) (gc : List RGBColor) (gn : List Coord3D)
    (gu : List Coord2D) (refs : FaceRefs) (i : Nat) : Prop :=
  inRangeB (refs.vertices.getD 0 none) gv.length = true ∧
  inRangeB (refs.vertices.getD (i + 1) none) gv.length = true ∧
  inRangeB (refs.vertices.getD (i + 2) none) gv.length = true ∧
  (refs.colors.length = refs.vertices.length →
    inRangeB (refs.colors.getD 0 none) gc.length = true ∧
    inRangeB (refs.colors.getD (i + 1) none) gc.length = true ∧
    inRangeB (refs.colors.getD (i + 2) none) gc.length = true) ∧
  (refs.normals.length = refs.vertices.length →
    inRangeB (refs.normals.getD 0 none) gn.length = true ∧
    inRangeB (refs.normals.getD (i + 1) none) gn.length = true ∧
    inRangeB (refs.normals.getD (i + 2) none) gn.length = true) ∧
  (refs.uvs.length = refs.vertices.length →
    inRangeB (refs.uvs.getD 0 none) gu.length = true ∧
    inRangeB (refs.uvs.getD (i + 1) none) gu.length = true ∧
    inRangeB (refs.uvs.getD (i + 2) none) gu.length = true)

instance (gv : List Coord3D) (gc : List RGBColor) (gn : List Coord3D) (gu : List Coord2D)
    (refs : FaceRefs) (i : Nat) : Decidable (faceStageCond gv gc gn gu refs i) := by
  unfold faceStageCond
  exact inferInstance

/-- Case-insensitive pairwise distinctness of the normalized base names
of a list of input files. -/
def uniqueInputNamesCI : List InputFile → Bool
  | [] => true
  | i :: rest =>
    (!rest.any (fun j => toLowerStr (GetFileName j.name) = toLowerStr (GetFileName i.name))) &&
      uniqueInputNamesCI rest

/-! Association-list lemmas. -/

theorem mapGet_mapSet_self {α β : Type} [DecidableEq α] (m : List (α × β)) (k : α) (v : β) :
    mapGet (mapSet m k v) k = some v := by
  induction m with
  | nil => simp [mapSet, mapGet]
  | cons p rest ih =>
    by_cases h : p.1 = k
    · simp [mapSet, mapGet, h]
    · simp [mapSet, mapGet, h, ih]

theorem mapGet_mapSet_of_ne {α β : Type} [DecidableEq α] (m : List (α × β)) {k k' : α}
    (v : β) (h : k' ≠ k) : mapGet (mapSet m k v) k' = mapGet m k' := by
  have hk : ¬ k = k' := fun hh => h hh.symm
  induction m with
  | nil => simp [mapSet, mapGet, hk]
  | cons p rest ih =>
    by_cases hp : p.1 = k
    · simp [mapSet, mapGet, hp, hk]
    · simp only [mapSet, hp, if_false, mapGet]
      by_cases hp' : p.1 = k'
      · simp [hp']
      · simp [hp', ih]

/-! File-list helper lemmas. -/

theorem uniqueNamesCI_append_singleton (fs : List ImporterFile) (x : ImporterFile)
    (h : uniqueNamesCI fs = true)
    (hx : ∀ g ∈ fs, toLowerStr g.name ≠ toLowerStr x.name) :
    uniqueNamesCI (fs ++ [x]) = true := by
  induction fs with
  | nil => simp [uniqueNamesCI]
  | cons f rest ih =>
    simp only [uniqueNamesCI, Bool.and_eq_true, Bool.not_eq_true', List.any_eq_false,
      decide_eq_true_eq] at h
    have hrec := ih h.2 (fun g hg => hx g (List.mem_cons_of_mem f hg))
    rw [List.cons_append]
    simp only [uniqueNamesCI, Bool.and_eq_true, Bool.not_eq_true', List.any_eq_false,
      decide_eq_true_eq]
    refine ⟨?_, hrec⟩
    intro g hg
    rcases List.mem_append.mp hg with hg1 | hg2
    · exact h.1 g hg1
    · have hgx : g = x := by simpa using hg2
      subst hgx
      intro hc
      exact hx f (List.mem_cons_self f rest) hc.symm

theorem containsFileByPath_eq_false_iff (fs : List ImporterFile) (p : String) :
    (ImporterFileList.mk fs).ContainsFileByPath p = false ↔
      ∀ g ∈ fs, toLowerStr g.name ≠ toLowerStr (GetFileName p) := by
  have hrepr : (ImporterFileList.mk fs).ContainsFileByPath p =
      (fs.find? (fun f => toLowerStr f.name = toLowerStr (GetFileName p))).isSome := rfl
  rw [hrepr]
  constructor
  · intro h g hg hc
    have h1 : (fs.find? (fun f => toLowerStr f.name = toLowerStr (GetFileName p))).isSome = true :=
      List.find?_isSome.mpr ⟨g, hg, by simpa using hc⟩
    rw [h1] at h
    cases h
  · intro h
    have h2 : fs.find? (fun f => toLowerStr f.name = toLowerStr (GetFileName p)) = none :=
      List.find?_eq_none.mpr (fun x hx => by simpa using h x hx)
    rw [h2]
    rfl

/-- C1: the claim states that a Url- or File-sourced input with no
directly provided buffer yields an ImporterFile with null content, so
that GetContent triggers a load for it. The code disagrees: the
ImporterFile constructor assigns content directly from data, so for a
Url input the content equals the URL datum (non-null) and
GetFileContent takes its no-load early return. This theorem evaluates
the embedded code at that failing input. -/
theorem c1_url_file_content_not_null :
    (FillFromInputFiles
      [⟨"model.obj", FileSource.url, some (FileData.urlStr "https://example.com/model.obj")⟩,
       ⟨"tex.png", FileSource.file, some (FileData.fileHandle "tex.png")⟩]).files.map
        (fun f => (f.content, GetFileContentAction f)) =
    [(some (FileData.urlStr "https://example.com/model.obj"), LoadAction.noLoad),
     (some (FileData.fileHandle "tex.png"), LoadAction.noLoad)] := by
  decide

/-- C7: a positive OBJ index i resolves to i-1 and a non-positive index
i resolves to count+i, with count the current length of the relevant
global sequence; consequently a face directive f -1 -2 -3 processed
after exactly three declared vertices produces exactly the same parser
state as f 3 2 1. -/
theorem c7_relative_index_resolution :
    (∀ (i : Int) (count : Nat), 0 < i → GetRelativeIndex (some i) count = some (i - 1)) ∧
    (∀ (i : Int) (count : Nat), i ≤ 0 →
      GetRelativeIndex (some i) count = some ((count : Int) + i)) ∧
    ((collectFaceRefs (ImportContent (fun _ => none) 1 ["v 0 0 0", "v 1 0 0", "v 0 1 0"])
        ["-1", "-2", "-3"]).vertices =
      (collectFaceRefs (ImportContent (fun _ => none) 1 ["v 0 0 0", "v 1 0 0", "v 0 1 0"])
        ["3", "2", "1"]).vertices ∧
     (ImportContent (fun _ => none) 1 ["v 0 0 0", "v 1 0 0", "v 0 1 0", "f -1 -2 -3"]).meshes =
      (ImportContent (fun _ => none) 1 ["v 0 0 0", "v 1 0 0", "v 0 1 0", "f 3 2 1"]).meshes) := by
  refine ⟨?_, ?_, by decide, by decide⟩
  · intro i count h
    simp [GetRelativeIndex, h]
  · intro i count h
    have h2 : ¬ 0 < i := by omega
    simp [GetRelativeIndex, h2]

/-- Witness for C7: both resolution rules evaluated at concrete inputs. -/
theorem c7_witness :
    GetRelativeIndex (some 5) 10 = some 4 ∧ GetRelativeIndex (some (-1)) 3 = some 2 := by
  constructor
  · have h := c7_relative_index_resolution.1 5 10 (by decide)
    simpa using h
  · have h := c7_relative_index_resolution.2.1 (-1) 3 (by decide)
    simpa using h

/-- C4 counterexample: FillFromInputFiles is one of the operations the
claim covers, and it performs no uniqueness check: two inputs whose
names differ only in case produce a file list that violates the
case-insensitive name-uniqueness invariant. -/
theorem c4_counterexample_fill_duplicates :
    uniqueNamesCI (FillFromInputFiles
      [⟨"a.obj", FileSource.url, some (FileData.urlStr "u1")⟩,
       ⟨"A.obj", FileSource.url, some (FileData.urlStr "u2")⟩]).files = false := by
  decide

/-- C4 amended: only ExtendFromFileList guards against duplicates, and
it does preserve case-insensitive name uniqueness (for files whose
stored names are normalized base names, as every constructor-built
file has); AddFile (used by archive decompression) preserves it only
when the added name is not already present, and FillFromInputFiles
produces a unique list only when the normalized input names are
pairwise distinct. -/
theorem c4_uniqueness_preservation :
    (∀ (l other : ImporterFileList), uniqueNamesCI l.files = true →
      (∀ f ∈ other.files, GetFileName f.name = f.name) →
      uniqueNamesCI (l.ExtendFromFileList other).files = true) ∧
    (∀ (l : ImporterFileList) (f : ImporterFile), uniqueNamesCI l.files = true →
      GetFileName f.name = f.name →
      l.ContainsFileByPath f.name = false →
      uniqueNamesCI (l.AddFile f).files = true) ∧
    (∀ inputs : List InputFile, uniqueInputNamesCI inputs = true →
      uniqueNamesCI (FillFromInputFiles inputs).files = true) := by
  have addOne : ∀ (fs : List ImporterFile) (f : ImporterFile),
      uniqueNamesCI fs = true → GetFileName f.name = f.name →
      (ImporterFileList.mk fs).ContainsFileByPath f.name = false →
      uniqueNamesCI (fs ++ [f]) = true := by
    intro fs f hu hn hc
    refine uniqueNamesCI_append_singleton fs f hu ?_
    intro g hg
    have := (containsFileByPath_eq_false_iff fs f.name).mp hc g hg
    rwa [hn] at this
  refine ⟨?_, ?_, ?_⟩
  · intro l other hu hn
    show uniqueNamesCI (other.files.foldl _ l.files) = true
    have main : ∀ (bs : List ImporterFile) (fs : List ImporterFile),
        uniqueNamesCI fs = true → (∀ f ∈ bs, GetFileName f.name = f.name) →
        uniqueNamesCI (bs.foldl (fun fs file =>
          if (ImporterFileList.mk fs).ContainsFileByPath file.name then fs
          else fs ++ [file]) fs) = true := by
      intro bs
      induction bs with
      | nil => intro fs hu _; exact hu
      | cons b rest ih =>
        intro fs hu hn
        rw [List.foldl_cons]
        by_cases hb : (ImporterFileList.mk fs).ContainsFileByPath b.name
        · rw [if_pos hb]
          exact ih fs hu (fun f hf => hn f (List.mem_cons_of_mem b hf))
        · rw [if_neg hb]
          refine ih (fs ++ [b]) ?_ (fun f hf => hn f (List.mem_cons_of_mem b hf))
          exact addOne fs b hu (hn b (List.mem_cons_self b rest))
            (Bool.eq_false_iff.mpr hb)
    exact main other.files l.files hu hn
  · intro l f hu hn hc
    exact addOne l.files f hu hn hc
  · intro inputs hu
    show uniqueNamesCI (inputs.map (fun i => ImporterFile.make i.name i.source i.data)) = true
    induction inputs with
    | nil => decide
    | cons i rest ih =>
      simp only [uniqueInputNamesCI, Bool.and_eq_true, Bool.not_eq_true', List.any_eq_false,
        decide_eq_true_eq] at hu
      rw [List.map_cons]
      simp only [uniqueNamesCI, Bool.and_eq_true, Bool.not_eq_true', List.any_eq_false,
        decide_eq_true_eq]
      refine ⟨?_, ih hu.2⟩
      intro g hg
      rcases List.mem_map.mp hg with ⟨j, hj, rfl⟩
      show ¬ toLowerStr (ImporterFile.make j.name j.source j.data).name =
        toLowerStr (ImporterFile.make i.name i.source i.data).name
      exact hu.1 j hj

theorem extendFromFileList_structure (a b : ImporterFileList) :
    ∃ r, (a.ExtendFromFileList b).files = a.files ++ r ∧ ∀ f ∈ r, f ∈ b.files := by
  have main : ∀ (bs fs : List ImporterFile),
      ∃ r, bs.foldl (fun fs file =>
          if (ImporterFileList.mk fs).ContainsFileByPath file.name then fs
          else fs ++ [file]) fs = fs ++ r ∧ ∀ f ∈ r, f ∈ bs := by
    intro bs
    induction bs with
    | nil => intro fs; exact ⟨[], by simp, by simp⟩
    | cons x rest ih =>
      intro fs
      rw [List.foldl_cons]
      by_cases hx : (ImporterFileList.mk fs).ContainsFileByPath x.name
      · rw [if_pos hx]
        rcases ih fs with ⟨r, h1, h2⟩
        exact ⟨r, h1, fun f hf => List.mem_cons_of_mem x (h2 f hf)⟩
      · rw [if_neg hx]
        rcases ih (fs ++ [x]) with ⟨r, h1, h2⟩
        refine ⟨x :: r, ?_, ?_⟩
        · rw [h1, List.append_assoc, List.singleton_append]
        · intro f hf
          rcases List.mem_cons.mp hf with hfx | hf2
          · rw [hfx]; exact List.mem_cons_self x rest
          · exact List.mem_cons_of_mem x (h2 f hf2)
  exact main b.files a.files

/-- C5: LoadFiles reconciliation. When the candidate list built from
the inputs has an importable file, or supplies none of the previously
missing names, it replaces the orchestrator list wholesale; otherwise
it is merged through ExtendFromFileList, which keeps the existing
entries unchanged as a prefix and only appends files of the
candidate. -/
theorem c5_load_files_reconciliation (canImport : String → Bool) (missing : List String)
    (current : ImporterFileList) (inputs : List InputFile) :
    (HasImportableFile canImport (FillFromInputFiles inputs) = true ∨
        (∀ m ∈ missing, (FillFromInputFiles inputs).ContainsFileByPath m = false) →
      LoadFilesList canImport missing current inputs = FillFromInputFiles inputs) ∧
    (HasImportableFile canImport (FillFromInputFiles inputs) = false →
      (∃ m ∈ missing, (FillFromInputFiles inputs).ContainsFileByPath m = true) →
      LoadFilesList canImport missing current inputs =
          current.ExtendFromFileList (FillFromInputFiles inputs) ∧
        (LoadFilesList canImport missing current inputs).files.take current.files.length =
          current.files ∧
        ∀ f ∈ (LoadFilesList canImport missing current inputs).files,
          f ∈ current.files ∨ f ∈ (FillFromInputFiles inputs).files) := by
  have hrepr : LoadFilesList canImport missing current inputs =
      (if HasImportableFile canImport (FillFromInputFiles inputs) then FillFromInputFiles inputs
       else if missing.any (fun m => (FillFromInputFiles inputs).ContainsFileByPath m) then
         current.ExtendFromFileList (FillFromInputFiles inputs)
       else FillFromInputFiles inputs) := rfl
  constructor
  · intro h
    rw [hrepr]
    rcases h with h | h
    · rw [if_pos h]
    · by_cases hi : HasImportableFile canImport (FillFromInputFiles inputs) = true
      · rw [if_pos hi]
      · rw [if_neg hi, if_neg]
        rw [List.any_eq_true]
        rintro ⟨m, hm, hc⟩
        rw [h m hm] at hc
        cases hc
  · intro h1 h2
    have hmerge : LoadFilesList canImport missing current inputs =
        current.ExtendFromFileList (FillFromInputFiles inputs) := by
      rw [hrepr, if_neg (by rw [h1]; exact Bool.false_ne_true), if_pos]
      rw [List.any_eq_true]
      exact h2
    refine ⟨hmerge, ?_, ?_⟩
    · rw [hmerge]
      rcases extendFromFileList_structure current (FillFromInputFiles inputs) with ⟨r, hr, _⟩
      rw [hr, List.take_left]
    · rw [hmerge]
      rcases extendFromFileList_structure current (FillFromInputFiles inputs) with ⟨r, hr, hmem⟩
      rw [hr]
      intro f hf
      rcases List.mem_append.mp hf with hf1 | hf2
      · exact Or.inl hf1
      · exact Or.inr (hmem f hf2)

/-- Witness for C5: both reconciliation branches evaluated at concrete
inputs: an importable candidate replaces the list; a candidate that
only supplies a missing dependency is merged. -/
theorem c5_witness :
    LoadFilesList (fun e => e = "obj") [] (ImporterFileList.mk [])
        [⟨"m.obj", FileSource.url, some (FileData.urlStr "u")⟩] =
      FillFromInputFiles [⟨"m.obj", FileSource.url, some (FileData.urlStr "u")⟩] ∧
    LoadFilesList (fun e => e = "obj")
        ["tex.png"] (ImporterFileList.mk [ImporterFile.make "m.obj" FileSource.url none])
        [⟨"tex.png", FileSource.file, some (FileData.fileHandle "h")⟩] =
      (ImporterFileList.mk [ImporterFile.make "m.obj" FileSource.url none]).ExtendFromFileList
        (FillFromInputFiles [⟨"tex.png", FileSource.file, some (FileData.fileHandle "h")⟩]) := by
  constructor
  · exact (c5_load_files_reconciliation (fun e => e = "obj") [] (ImporterFileList.mk [])
      [⟨"m.obj", FileSource.url, some (FileData.urlStr "u")⟩]).1 (Or.inl (by decide))
  · exact ((c5_load_files_reconciliation (fun e => e = "obj") ["tex.png"]
      (ImporterFileList.mk [ImporterFile.make "m.obj" FileSource.url none])
      [⟨"tex.png", FileSource.file, some (FileData.fileHandle "h")⟩]).2 (by decide)
      ⟨"tex.png", by decide, by decide⟩).1

theorem getBufferCallback_fileBuffers (fl : ImporterFileList) (a : ImporterFileAccessor)
    (n : String) : (getBufferCallback fl a n).2.fileBuffers = a.fileBuffers := by
  rcases hf : fl.FindFileByPath n with _ | f
  · simp [getBufferCallback, hf]
  · rcases hc : f.content with _ | c <;> simp [getBufferCallback, hf, hc]

theorem getBufferCallback_count (fl : ImporterFileList) (a : ImporterFileAccessor)
    (n m : String) :
    ((getBufferCallback fl a n).2.usedFiles ++ (getBufferCallback fl a n).2.missingFiles).count m
      = (a.usedFiles ++ a.missingFiles).count m + (if n = m then 1 else 0) := by
  rcases hf : fl.FindFileByPath n with _ | f
  · simp only [getBufferCallback, hf, List.count_append, List.count_singleton, beq_iff_eq]
    by_cases h : n = m <;> simp [h] <;> omega
  · rcases hc : f.content with _ | c <;>
      simp only [getBufferCallback, hf, hc, List.count_append, List.count_singleton,
        beq_iff_eq] <;>
      (by_cases h : n = m <;> simp [h] <;> omega)

theorem getFileBuffer_cached (fl : ImporterFileList) (a : ImporterFileAccessor) (p : String)
    {b : Option FileData} (h : mapGet a.fileBuffers (GetFileName p) = some b) :
    GetFileBuffer fl a p = (b, a) := by
  simp only [GetFileBuffer, h]

theorem getFileBuffer_new_fields (fl : ImporterFileList) (a : ImporterFileAccessor)
    (p : String) (h : mapGet a.fileBuffers (GetFileName p) = none) :
    (GetFileBuffer fl a p).1 = (getBufferCallback fl a (GetFileName p)).1 ∧
    (GetFileBuffer fl a p).2.usedFiles = (getBufferCallback fl a (GetFileName p)).2.usedFiles ∧
    (GetFileBuffer fl a p).2.missingFiles =
      (getBufferCallback fl a (GetFileName p)).2.missingFiles ∧
    (GetFileBuffer fl a p).2.fileBuffers =
      mapSet (getBufferCallback fl a (GetFileName p)).2.fileBuffers (GetFileName p)
        (getBufferCallback fl a (GetFileName p)).1 := by
  refine ⟨?_, ?_, ?_, ?_⟩ <;> simp only [GetFileBuffer, h]

theorem getFileBuffer_preserves_binding (fl : ImporterFileList) (a : ImporterFileAccessor)
    (p n : String) {b : Option FileData} (h : mapGet a.fileBuffers n = some b) :
    mapGet (GetFileBuffer fl a p).2.fileBuffers n = some b := by
  by_cases hg : (mapGet a.fileBuffers (GetFileName p)).isSome
  · rcases Option.isSome_iff_exists.mp hg with ⟨c, hc⟩
    rw [getFileBuffer_cached fl a p hc]
    exact h
  · have hn : mapGet a.fileBuffers (GetFileName p) = none :=
      Option.not_isSome_iff_eq_none.mp hg
    rcases getFileBuffer_new_fields fl a p hn with ⟨_, _, _, hbuf⟩
    have hne : n ≠ GetFileName p := by
      intro he
      rw [he, hn] at h
      cases h
    rw [hbuf, mapGet_mapSet_of_ne _ _ hne, getBufferCallback_fileBuffers]
    exact h

theorem getFileBuffer_step_count (fl : ImporterFileList) (a : ImporterFileAccessor)
    (p m : String) :
    ((GetFileBuffer fl a p).2.usedFiles ++ (GetFileBuffer fl a p).2.missingFiles).count m +
      (if (mapGet (GetFileBuffer fl a p).2.fileBuffers m).isSome then 0 else 1) ≤
    (a.usedFiles ++ a.missingFiles).count m +
      (if (mapGet a.fileBuffers m).isSome then 0 else 1) := by
  by_cases hg : (mapGet a.fileBuffers (GetFileName p)).isSome
  · rcases Option.isSome_iff_exists.mp hg with ⟨c, hc⟩
    rw [getFileBuffer_cached fl a p hc]
  · have hn : mapGet a.fileBuffers (GetFileName p) = none :=
      Option.not_isSome_iff_eq_none.mp hg
    rcases getFileBuffer_new_fields fl a p hn with ⟨_, hu, hm2, hbuf⟩
    rw [List.count_append, hu, hm2, ← List.count_append,
      getBufferCallback_count fl a (GetFileName p) m, hbuf]
    by_cases hm : GetFileName p = m
    · rw [if_pos hm, hm, mapGet_mapSet_self]
      rw [hm] at hn
      simp [hn]
    · rw [if_neg hm, mapGet_mapSet_of_ne _ _ (fun he => hm he.symm),
        getBufferCallback_fileBuffers]
      omega

/-! Converter-level lemmas about GetMeshIndex and the Add wrappers. -/

theorem GetMeshIndex_fst_isSome {α : Type} [Inhabited α] (g : Option Int) (vals : List α)
    (m0 : List (Nat × Nat)) (adder : α → Mesh → Nat × Mesh) (mesh : Mesh) :
    (GetMeshIndex g vals m0 adder mesh).1.isSome = inRangeB g vals.length := by
  rcases g with _ | gi
  · rfl
  · simp only [GetMeshIndex, inRangeB]
    by_cases h : gi < 0 ∨ (vals.length : Int) ≤ gi
    · rw [if_pos h]
      have h2 : ¬ (0 ≤ gi) ∨ ¬ (gi < (vals.length : Int)) := by omega
      rcases h2 with h2 | h2 <;> simp [h2]
    · rw [if_neg h]
      have h0 : 0 ≤ gi := by omega
      have h1 : gi < (vals.length : Int) := by omega
      rcases hm : mapGet m0 gi.toNat with _ | mi <;> simp [hm, h0, h1]

theorem GetMeshIndex_mesh_preserved {α γ : Type} [Inhabited α] (P : Mesh → γ)
    (g : Option Int) (vals : List α) (m0 : List (Nat × Nat))
    (adder : α → Mesh → Nat × Mesh) (mesh : Mesh)
    (hadd : ∀ v m, P (adder v m).2 = P m) :
    P (GetMeshIndex g vals m0 adder mesh).2.2 = P mesh := by
  rcases g with _ | gi
  · rfl
  · simp only [GetMeshIndex]
    by_cases h : gi < 0 ∨ (vals.length : Int) ≤ gi
    · rw [if_pos h]
    · rw [if_neg h]
      rcases hm : mapGet m0 gi.toNat with _ | mi
      · simp [hm, hadd]
      · simp [hm]

theorem GetMeshIndex_preserves_mapGet {α : Type} [Inhabited α] (g : Option Int)
    (vals : List α) (m0 : List (Nat × Nat)) (adder : α → Mesh → Nat × Mesh) (mesh : Mesh)
    (k m : Nat) (h : mapGet m0 k = some m) :
    mapGet (GetMeshIndex g vals m0 adder mesh).2.1 k = some m := by
  rcases g with _ | gi
  · exact h
  · simp only [GetMeshIndex]
    by_cases hc : gi < 0 ∨ (vals.length : Int) ≤ gi
    · rw [if_pos hc]
      exact h
    · rw [if_neg hc]
      rcases hm : mapGet m0 gi.toNat with _ | mi
      · have hk : k ≠ gi.toNat := by
          intro he
          rw [he, hm] at h
          cases h
        simp only [hm]
        rw [mapGet_mapSet_of_ne _ _ hk]
        exact h
      · simp only [hm]
        exact h

theorem GetMeshIndex_binding_of_some {α : Type} [Inhabited α] (g : Option Int)
    (vals : List α) (m0 : List (Nat × Nat)) (adder : α → Mesh → Nat × Mesh) (mesh : Mesh)
    (r : Nat) (h : (GetMeshIndex g vals m0 adder mesh).1 = some r) :
    ∃ gi : Int, g = some gi ∧ 0 ≤ gi ∧ gi < (vals.length : Int) ∧
      mapGet (GetMeshIndex g vals m0 adder mesh).2.1 gi.toNat = some r := by
  rcases g with _ | gi
  · cases h
  · refine ⟨gi, rfl, ?_⟩
    simp only [GetMeshIndex] at h ⊢
    by_cases hc : gi < 0 ∨ (vals.length : Int) ≤ gi
    · rw [if_pos hc] at h
      cases h
    · rw [if_neg hc] at h ⊢
      refine ⟨by omega, by omega, ?_⟩
      rcases hm : mapGet m0 gi.toNat with _ | mi
      · rw [hm] at h
        simp only [hm]
        simp only [hm] at h
        cases h
        exact mapGet_mapSet_self _ _ _
      · rw [hm] at h
        simp only [hm] at h ⊢
        cases h
        rfl

theorem GetMeshIndex_hit {α : Type} [Inhabited α] (gi : Int) (vals : List α)
    (m0 : List (Nat × Nat)) (adder : α → Mesh → Nat × Mesh) (mesh : Mesh) (m : Nat)
    (h0 : 0 ≤ gi) (h1 : gi < (vals.length : Int)) (hm : mapGet m0 gi.toNat = some m) :
    GetMeshIndex (some gi) vals m0 adder mesh = (some m, m0, mesh) := by
  simp only [GetMeshIndex]
  rw [if_neg (by omega), hm]

theorem GetMeshIndex_miss {α : Type} [Inhabited α] (gi : Int) (vals : List α)
    (m0 : List (Nat × Nat)) (adder : α → Mesh → Nat × Mesh) (mesh : Mesh)
    (h0 : 0 ≤ gi) (h1 : gi < (vals.length : Int)) (hm : mapGet m0 gi.toNat = none) :
    GetMeshIndex (some gi) vals m0 adder mesh =
      (some (adder (vals.getD gi.toNat default) mesh).1,
       mapSet m0 gi.toNat (adder (vals.getD gi.toNat default) mesh).1,
       (adder (vals.getD gi.toNat default) mesh).2) := by
  simp only [GetMeshIndex]
  rw [if_neg (by omega), hm]

theorem addVertex_isSome (c : ObjMeshConverter) (g : Option Int) (gv : List Coord3D) :
    (c.AddVertex g gv).1.isSome = inRangeB g gv.length :=
  GetMeshIndex_fst_isSome g gv c.globalToMeshVertices (fun v m => m.AddVertex v) c.mesh

theorem addVertexColor_isSome (c : ObjMeshConverter) (g : Option Int) (gc : List RGBColor) :
    (c.AddVertexColor g gc).1.isSome = inRangeB g gc.length :=
  GetMeshIndex_fst_isSome g gc c.globalToMeshVertexColors (fun v m => m.AddVertexColor v) c.mesh

theorem addNormal_isSome (c : ObjMeshConverter) (g : Option Int) (gn : List Coord3D) :
    (c.AddNormal g gn).1.isSome = inRangeB g gn.length :=
  GetMeshIndex_fst_isSome g gn c.globalToMeshNormals (fun v m => m.AddNormal v) c.mesh

theorem addUV_isSome (c : ObjMeshConverter) (g : Option Int) (gu : List Coord2D) :
    (c.AddUV g gu).1.isSome = inRangeB g gu.length :=
  GetMeshIndex_fst_isSome g gu c.globalToMeshUvs (fun v m => m.AddTextureUV v) c.mesh

theorem vlookup_addVertexColor (c : ObjMeshConverter) (g : Option Int) (gc : List RGBColor)
    (h0 : Option Int) : vlookup (c.AddVertexColor g gc).2 h0 = vlookup c h0 := rfl

theorem vlookup_addNormal (c : ObjMeshConverter) (g : Option Int) (gn : List Coord3D)
    (h0 : Option Int) : vlookup (c.AddNormal g gn).2 h0 = vlookup c h0 := rfl

theorem vlookup_addUV (c : ObjMeshConverter) (g : Option Int) (gu : List Coord2D)
    (h0 : Option Int) : vlookup (c.AddUV g gu).2 h0 = vlookup c h0 := rfl

theorem vlookup_addTriangle (c : ObjMeshConverter) (t : Triangle) (h0 : Option Int) :
    vlookup (c.AddTriangle t) h0 = vlookup c h0 := rfl

theorem addVertex_mesh_triangles (c : ObjMeshConverter) (g : Option Int)
    (gv : List Coord3D) : (c.AddVertex g gv).2.mesh.triangles = c.mesh.triangles :=
  GetMeshIndex_mesh_preserved Mesh.triangles g gv c.globalToMeshVertices
    (fun v m => m.AddVertex v) c.mesh (fun _ _ => rfl)

theorem addVertexColor_mesh_triangles (c : ObjMeshConverter) (g : Option Int)
    (gc : List RGBColor) : (c.AddVertexColor g gc).2.mesh.triangles = c.mesh.triangles :=
  GetMeshIndex_mesh_preserved Mesh.triangles g gc c.globalToMeshVertexColors
    (fun v m => m.AddVertexColor v) c.mesh (fun _ _ => rfl)

theorem addNormal_mesh_triangles (c : ObjMeshConverter) (g : Option Int)
    (gn : List Coord3D) : (c.AddNormal g gn).2.mesh.triangles = c.mesh.triangles :=
  GetMeshIndex_mesh_preserved Mesh.triangles g gn c.globalToMeshNormals
    (fun v m => m.AddNormal v) c.mesh (fun _ _ => rfl)

theorem addUV_mesh_triangles (c : ObjMeshConverter) (g : Option Int)
    (gu : List Coord2D) : (c.AddUV g gu).2.mesh.triangles = c.mesh.triangles :=
  GetMeshIndex_mesh_preserved Mesh.triangles g gu c.globalToMeshUvs
    (fun v m => m.AddTextureUV v) c.mesh (fun _ _ => rfl)

theorem addVertex_mesh_lines (c : ObjMeshConverter) (g : Option Int)
    (gv : List Coord3D) : (c.AddVertex g gv).2.mesh.lines = c.mesh.lines :=
  GetMeshIndex_mesh_preserved Mesh.lines g gv c.globalToMeshVertices
    (fun v m => m.AddVertex v) c.mesh (fun _ _ => rfl)

theorem addVertex_vlookup_of_some (c : ObjMeshConverter) (g : Option Int)
    (gv : List Coord3D) (r : Nat) (h : (c.AddVertex g gv).1 = some r) :
    vlookup (c.AddVertex g gv).2 g = some r ∧ inRangeB g gv.length = true := by
  rcases GetMeshIndex_binding_of_some g gv c.globalToMeshVertices
    (fun v m => m.AddVertex v) c.mesh r h with ⟨gi, hg, h0, h1, hmap⟩
  subst hg
  constructor
  · show (if gi < 0 then none else
      mapGet (c.AddVertex (some gi) gv).2.globalToMeshVertices gi.toNat) = some r
    rw [if_neg (by omega)]
    exact hmap
  · simp only [inRangeB]
    simp [h0, h1]

theorem addVertex_preserves_vlookup (c : ObjMeshConverter) (g : Option Int)
    (gv : List Coord3D) (h0 : Option Int) (m : Nat) (h : vlookup c h0 = some m) :
    vlookup (c.AddVertex g gv).2 h0 = some m := by
  rcases h0 with _ | hi
  · cases h
  · simp only [vlookup] at h ⊢
    by_cases hneg : hi < 0
    · rw [if_pos hneg] at h
      cases h
    · rw [if_neg hneg] at h ⊢
      exact GetMeshIndex_preserves_mapGet g gv c.globalToMeshVertices
        (fun v m => m.AddVertex v) c.mesh hi.toNat m h

theorem addVertex_hit (c : ObjMeshConverter) (gi : Int) (gv : List Coord3D) (m : Nat)
    (h1 : gi < (gv.length : Int)) (h : vlookup c (some gi) = some m) :
    c.AddVertex (some gi) gv = (some m, c) := by
  simp only [vlookup] at h
  by_cases hneg : gi < 0
  · rw [if_pos hneg] at h
    cases h
  · rw [if_neg hneg] at h
    show ((GetMeshIndex (some gi) gv c.globalToMeshVertices (fun v m => m.AddVertex v)
      c.mesh).1, _) = _
    rw [GetMeshIndex_hit gi gv c.globalToMeshVertices (fun v m => m.AddVertex v) c.mesh m
      (by omega) h1 h]

theorem addVertex_miss (c : ObjMeshConverter) (gi : Int) (gv : List Coord3D)
    (h0 : 0 ≤ gi) (h1 : gi < (gv.length : Int))
    (hm : mapGet c.globalToMeshVertices gi.toNat = none) :
    (c.AddVertex (some gi) gv).1 = some c.mesh.vertices.length ∧
    (c.AddVertex (some gi) gv).2.mesh.vertices =
      c.mesh.vertices ++ [gv.getD gi.toNat default] ∧
    vlookup (c.AddVertex (some gi) gv).2 (some gi) = some c.mesh.vertices.length := by
  have hrw := GetMeshIndex_miss gi gv c.globalToMeshVertices (fun v m => m.AddVertex v)
    c.mesh h0 h1 hm
  refine ⟨?_, ?_, ?_⟩
  · show (GetMeshIndex (some gi) gv c.globalToMeshVertices (fun v m => m.AddVertex v)
      c.mesh).1 = _
    rw [hrw]
    rfl
  · show (GetMeshIndex (some gi) gv c.globalToMeshVertices (fun v m => m.AddVertex v)
      c.mesh).2.2.vertices = _
    rw [hrw]
    rfl
  · show (if gi < 0 then none else
      mapGet (GetMeshIndex (some gi) gv c.globalToMeshVertices (fun v m => m.AddVertex v)
        c.mesh).2.1 gi.toNat) = _
    rw [if_neg (by omega), hrw]
    exact mapGet_mapSet_self _ _ _

theorem addTriple_snd (add : ObjMeshConverter → Option Int → Option Nat × ObjMeshConverter)
    (rs : List (Option Int)) (i : Nat) (conv : ObjMeshConverter) :
    (addTriple add rs i conv).2 =
      (add (add (add conv (rs.getD 0 none)).2 (rs.getD (i + 1) none)).2
        (rs.getD (i + 2) none)).2 := by
  unfold addTriple
  cases ha : (add conv (rs.getD 0 none)).1 <;>
  cases hb : (add (add conv (rs.getD 0 none)).2 (rs.getD (i + 1) none)).1 <;>
  cases hc : (add (add (add conv (rs.getD 0 none)).2 (rs.getD (i + 1) none)).2
    (rs.getD (i + 2) none)).1 <;>
  simp only [ha, hb, hc]

theorem addTriple_preserves {γ : Type} (P : ObjMeshConverter → γ)
    (add : ObjMeshConverter → Option Int → Option Nat × ObjMeshConverter)
    (hP : ∀ c g, P (add c g).2 = P c) (rs : List (Option Int)) (i : Nat)
    (conv : ObjMeshConverter) : P (addTriple add rs i conv).2 = P conv := by
  rw [addTriple_snd, hP, hP, hP]

theorem addTriple_isSome {len : Nat}
    (add : ObjMeshConverter → Option Int → Option Nat × ObjMeshConverter)
    (hIsSome : ∀ c g, (add c g).1.isSome = inRangeB g len) (rs : List (Option Int))
    (i : Nat) (conv : ObjMeshConverter) :
    (addTriple add rs i conv).1.isSome =
      (inRangeB (rs.getD 0 none) len && inRangeB (rs.getD (i + 1) none) len &&
       inRangeB (rs.getD (i + 2) none) len) := by
  unfold addTriple
  have h0 := hIsSome conv (rs.getD 0 none)
  have h1 := hIsSome (add conv (rs.getD 0 none)).2 (rs.getD (i + 1) none)
  have h2 := hIsSome (add (add conv (rs.getD 0 none)).2 (rs.getD (i + 1) none)).2
    (rs.getD (i + 2) none)
  cases ha : (add conv (rs.getD 0 none)).1 <;>
  cases hb : (add (add conv (rs.getD 0 none)).2 (rs.getD (i + 1) none)).1 <;>
  cases hc : (add (add (add conv (rs.getD 0 none)).2 (rs.getD (i + 1) none)).2
    (rs.getD (i + 2) none)).1 <;>
  (rw [ha] at h0; rw [hb] at h1; rw [hc] at h2;
   simp only [ha, hb, hc]; rw [← h0, ← h1, ← h2]; simp)

theorem addTriple_vertex_bindings (gv : List Coord3D) (rs : List (Option Int)) (i : Nat)
    (conv : ObjMeshConverter) (tr : Nat × Nat × Nat) (conv' : ObjMeshConverter)
    (h : addTriple (fun cv g => cv.AddVertex g gv) rs i conv = (some tr, conv')) :
    vlookup conv' (rs.getD 0 none) = some tr.1 ∧
    vlookup conv' (rs.getD (i + 1) none) = some tr.2.1 ∧
    vlookup conv' (rs.getD (i + 2) none) = some tr.2.2 ∧
    (∀ h0 m, vlookup conv h0 = some m → vlookup conv' h0 = some m) ∧
    inRangeB (rs.getD 0 none) gv.length = true ∧
    inRangeB (rs.getD (i + 1) none) gv.length = true ∧
    inRangeB (rs.getD (i + 2) none) gv.length = true := by
  simp only [addTriple] at h
  rcases ha : (conv.AddVertex (rs.getD 0 none) gv).1 with _ | a <;> rw [ha] at h
  · rcases hb : ((conv.AddVertex (rs.getD 0 none) gv).2.AddVertex (rs.getD (i + 1) none)
      gv).1 with _ | b <;> rw [hb] at h <;>
    [skip;
     rcases hc : (((conv.AddVertex (rs.getD 0 none) gv).2.AddVertex (rs.getD (i + 1) none)
       gv).2.AddVertex (rs.getD (i + 2) none) gv).1 with _ | c <;> rw [hc] at h] <;>
    cases h
  · rcases hb : ((conv.AddVertex (rs.getD 0 none) gv).2.AddVertex (rs.getD (i + 1) none)
      gv).1 with _ | b <;> rw [hb] at h
    · cases h
    · rcases hc : (((conv.AddVertex (rs.getD 0 none) gv).2.AddVertex (rs.getD (i + 1) none)
        gv).2.AddVertex (rs.getD (i + 2) none) gv).1 with _ | c <;> rw [hc] at h
      · cases h
      · have hinj : some (a, b, c) = some tr ∧
            (((conv.AddVertex (rs.getD 0 none) gv).2.AddVertex (rs.getD (i + 1) none)
              gv).2.AddVertex (rs.getD (i + 2) none) gv).2 = conv' := by
          constructor
          · exact congrArg Prod.fst h
          · exact congrArg Prod.snd h
        have htr : (a, b, c) = tr := by
          injection hinj.1
        subst htr
        rcases hinj with ⟨-, hconv⟩
        subst hconv
        have hb0 := (addVertex_vlookup_of_some conv (rs.getD 0 none) gv a ha).1
        have hb0a := addVertex_preserves_vlookup _ (rs.getD (i + 1) none) gv _ a hb0
        have hb0b := addVertex_preserves_vlookup _ (rs.getD (i + 2) none) gv _ a hb0a
        have hb1 := (addVertex_vlookup_of_some _ (rs.getD (i + 1) none) gv b hb).1
        have hb1a := addVertex_preserves_vlookup _ (rs.getD (i + 2) none) gv _ b hb1
        have hb2 := (addVertex_vlookup_of_some _ (rs.getD (i + 2) none) gv c hc).1
        refine ⟨hb0b, hb1a, hb2, ?_,
          (addVertex_vlookup_of_some conv (rs.getD 0 none) gv a ha).2,
          (addVertex_vlookup_of_some _ (rs.getD (i + 1) none) gv b hb).2,
          (addVertex_vlookup_of_some _ (rs.getD (i + 2) none) gv c hc).2⟩
        intro h0 m hm
        exact addVertex_preserves_vlookup _ _ gv _ m
          (addVertex_preserves_vlookup _ _ gv _ m
            (addVertex_preserves_vlookup _ _ gv _ m hm))

theorem vlookup_congr (c₁ c₂ : ObjMeshConverter)
    (h : c₁.globalToMeshVertices = c₂.globalToMeshVertices) (g : Option Int) :
    vlookup c₁ g = vlookup c₂ g := by
  rcases g with _ | gi
  · rfl
  · simp only [vlookup, h]

theorem faceStage_cases {len : Nat}
    (add : ObjMeshConverter → Option Int → Option Nat × ObjMeshConverter)
    (attach : Triangle → Nat × Nat × Nat → Triangle) (run : Prop) [Decidable run]
    (hIsSome : ∀ c g, (add c g).1.isSome = inRangeB g len)
    (hTri : ∀ c g, (add c g).2.mesh.triangles = c.mesh.triangles)
    (hGtmv : ∀ c g, (add c g).2.globalToMeshVertices = c.globalToMeshVertices)
    (rs : List (Option Int)) (i : Nat) (t : Triangle) (conv : ObjMeshConverter) :
    (∃ conv₁, faceStage add attach run rs i t conv = (none, conv₁) ∧
       conv₁.mesh.triangles = conv.mesh.triangles ∧
       conv₁.globalToMeshVertices = conv.globalToMeshVertices ∧
       run ∧ ¬(inRangeB (rs.getD 0 none) len = true ∧
              inRangeB (rs.getD (i + 1) none) len = true ∧
              inRangeB (rs.getD (i + 2) none) len = true)) ∨
    (∃ t' conv₁, faceStage add attach run rs i t conv = (some t', conv₁) ∧
       conv₁.mesh.triangles = conv.mesh.triangles ∧
       conv₁.globalToMeshVertices = conv.globalToMeshVertices ∧
       (¬ run → t' = t) ∧ (t' = t ∨ ∃ tr, t' = attach t tr)) := by
  unfold faceStage
  by_cases hrun : run
  · rw [if_pos hrun]
    have hTriA := addTriple_preserves (fun c => c.mesh.triangles) add hTri rs i conv
    have hGmA := addTriple_preserves (fun c => c.globalToMeshVertices) add hGtmv rs i conv
    have hSA := addTriple_isSome add hIsSome rs i conv
    rcases hB : addTriple add rs i conv with ⟨ob, convB⟩
    rw [hB] at hTriA hGmA hSA
    rcases ob with _ | tr
    · left
      refine ⟨convB, rfl, hTriA, hGmA, hrun, ?_⟩
      rintro ⟨h1, h2, h3⟩
      rw [h1, h2, h3] at hSA
      simp at hSA
    · right
      exact ⟨attach t tr, convB, rfl, hTriA, hGmA, fun hn => absurd hrun hn,
        Or.inr ⟨tr, rfl⟩⟩
  · rw [if_neg hrun]
    right
    exact ⟨t, conv, rfl, rfl, rfl, fun _ => rfl, Or.inl rfl⟩

theorem faceLoop_cons_cases (gv : List Coord3D) (gc : List RGBColor) (gn : List Coord3D)
    (gu : List Coord2D) (matIdx : Option Nat) (refs : FaceRefs) (i : Nat)
    (rest : List Nat) (conv : ObjMeshConverter) :
    (∃ conv₁, faceLoop gv gc gn gu matIdx refs (i :: rest) conv = (conv₁, true) ∧
       conv₁.mesh.triangles = conv.mesh.triangles ∧
       ¬ faceStageCond gv gc gn gu refs i) ∨
    (∃ tri conv₁,
       faceLoop gv gc gn gu matIdx refs (i :: rest) conv =
         faceLoop gv gc gn gu matIdx refs rest (conv₁.AddTriangle tri) ∧
       conv₁.mesh.triangles = conv.mesh.triangles ∧
       (∀ h0 m, vlookup conv h0 = some m → vlookup conv₁ h0 = some m) ∧
       vlookup conv₁ (refs.vertices.getD 0 none) = some tri.v0 ∧
       vlookup conv₁ (refs.vertices.getD (i + 1) none) = some tri.v1 ∧
       vlookup conv₁ (refs.vertices.getD (i + 2) none) = some tri.v2 ∧
       inRangeB (refs.vertices.getD 0 none) gv.length = true ∧
       inRangeB (refs.vertices.getD (i + 1) none) gv.length = true ∧
       inRangeB (refs.vertices.getD (i + 2) none) gv.length = true ∧
       (refs.colors.length ≠ refs.vertices.length → tri.colors = none) ∧
       (refs.normals.length ≠ refs.vertices.length → tri.normals = none) ∧
       (refs.uvs.length ≠ refs.vertices.length → tri.uvs = none)) := by
  have hTri1 := addTriple_preserves (fun c => c.mesh.triangles)
    (fun c g => c.AddVertex g gv) (fun c g => addVertex_mesh_triangles c g gv)
    refs.vertices i conv
  have hS1 := addTriple_isSome (fun c g => c.AddVertex g gv)
    (fun c g => addVertex_isSome c g gv) refs.vertices i conv
  rcases hA : addTriple (fun c g => c.AddVertex g gv) refs.vertices i conv with ⟨oa, convA⟩
  rw [hA] at hTri1 hS1
  rcases oa with _ | vtr
  · left
    refine ⟨convA, ?_, hTri1, ?_⟩
    · simp only [faceLoop, hA]
    · rintro ⟨h1, h2, h3, -⟩
      rw [h1, h2, h3] at hS1
      simp at hS1
  · rcases addTriple_vertex_bindings gv refs.vertices i conv vtr convA hA with
      ⟨hv0, hv1, hv2, hmono, hr0, hr1, hr2⟩
    set t1 : Triangle := { v0 := vtr.1, v1 := vtr.2.1, v2 := vtr.2.2 } with ht1
    rcases faceStage_cases (fun c g => c.AddVertexColor g gc)
        (fun t tr => t.SetVertexColors tr.1 tr.2.1 tr.2.2)
        (refs.colors.length = refs.vertices.length)
        (fun c g => addVertexColor_isSome c g gc)
        (fun c g => addVertexColor_mesh_triangles c g gc) (fun c g => rfl)
        refs.colors i t1 convA with
      ⟨convB, hB, hTri2, hGm2, hrun2, hnr2⟩ | ⟨t2, convB, hB, hTri2, hGm2, hskip2, hat2⟩
    · left
      refine ⟨convB, ?_, by rw [hTri2, hTri1], ?_⟩
      · simp only [faceLoop, hA, hB]
      · rintro ⟨-, -, -, hcolors, -, -⟩
        exact hnr2 (hcolors hrun2)
    · rcases faceStage_cases (fun c g => c.AddNormal g gn)
          (fun t tr => t.SetNormals tr.1 tr.2.1 tr.2.2)
          (refs.normals.length = refs.vertices.length)
          (fun c g => addNormal_isSome c g gn)
          (fun c g => addNormal_mesh_triangles c g gn) (fun c g => rfl)
          refs.normals i t2 convB with
        ⟨convC, hC, hTri3, hGm3, hrun3, hnr3⟩ | ⟨t3, convC, hC, hTri3, hGm3, hskip3, hat3⟩
      · left
        refine ⟨convC, ?_, by rw [hTri3, hTri2, hTri1], ?_⟩
        · simp only [faceLoop, hA, hB, hC]
        · rintro ⟨-, -, -, -, hnormals, -⟩
          exact hnr3 (hnormals hrun3)
      · rcases faceStage_cases (fun c g => c.AddUV g gu)
            (fun t tr => t.SetTextureUVs tr.1 tr.2.1 tr.2.2)
            (refs.uvs.length = refs.vertices.length)
            (fun c g => addUV_isSome c g gu)
            (fun c g => addUV_mesh_triangles c g gu) (fun c g => rfl)
            refs.uvs i t3 convC with
          ⟨convD, hD, hTri4, hGm4, hrun4, hnr4⟩ | ⟨t4, convD, hD, hTri4, hGm4, hskip4, hat4⟩
        · left
          refine ⟨convD, ?_, by rw [hTri4, hTri3, hTri2, hTri1], ?_⟩
          · simp only [faceLoop, hA, hB, hC, hD]
          · rintro ⟨-, -, -, -, -, huvs⟩
            exact hnr4 (huvs hrun4)
        · right
          obtain ⟨f2v0, f2v1, f2v2, f2n, f2u⟩ :
              t2.v0 = t1.v0 ∧ t2.v1 = t1.v1 ∧ t2.v2 = t1.v2 ∧
              t2.normals = t1.normals ∧ t2.uvs = t1.uvs := by
            rcases hat2 with h | ⟨tr, h⟩ <;> subst h <;> exact ⟨rfl, rfl, rfl, rfl, rfl⟩
          obtain ⟨f3v0, f3v1, f3v2, f3c, f3u⟩ :
              t3.v0 = t2.v0 ∧ t3.v1 = t2.v1 ∧ t3.v2 = t2.v2 ∧
              t3.colors = t2.colors ∧ t3.uvs = t2.uvs := by
            rcases hat3 with h | ⟨tr, h⟩ <;> subst h <;> exact ⟨rfl, rfl, rfl, rfl, rfl⟩
          obtain ⟨f4v0, f4v1, f4v2, f4c, f4n⟩ :
              t4.v0 = t3.v0 ∧ t4.v1 = t3.v1 ∧ t4.v2 = t3.v2 ∧
              t4.colors = t3.colors ∧ t4.normals = t3.normals := by
            rcases hat4 with h | ⟨tr, h⟩ <;> subst h <;> exact ⟨rfl, rfl, rfl, rfl, rfl⟩
          have hmatf : ∀ (t : Triangle),
              (applyMaterialIndex matIdx t).v0 = t.v0 ∧
              (applyMaterialIndex matIdx t).v1 = t.v1 ∧
              (applyMaterialIndex matIdx t).v2 = t.v2 ∧
              (applyMaterialIndex matIdx t).colors = t.colors ∧
              (applyMaterialIndex matIdx t).normals = t.normals ∧
              (applyMaterialIndex matIdx t).uvs = t.uvs := by
            intro t
            cases matIdx <;> exact ⟨rfl, rfl, rfl, rfl, rfl, rfl⟩
          have hvchain : ∀ h0 : Option Int, vlookup convD h0 = vlookup convA h0 := by
            intro h0
            rw [vlookup_congr convD convC hGm4 h0, vlookup_congr convC convB hGm3 h0,
              vlookup_congr convB convA hGm2 h0]
          refine ⟨applyMaterialIndex matIdx t4, convD,
            ?_, ?_, ?_, ?_, ?_, ?_, hr0, hr1, hr2, ?_, ?_, ?_⟩
          · simp only [faceLoop, hA, hB, hC, hD]
          · rw [hTri4, hTri3, hTri2, hTri1]
          · intro h0 m hm
            rw [hvchain h0]
            exact hmono h0 m hm
          · rw [(hmatf t4).1, f4v0, f3v0, f2v0, hvchain]
            exact hv0
          · rw [(hmatf t4).2.1, f4v1, f3v1, f2v1, hvchain]
            exact hv1
          · rw [(hmatf t4).2.2.1, f4v2, f3v2, f2v2, hvchain]
            exact hv2
          · intro hne
            rw [(hmatf t4).2.2.2.1, f4c, f3c, hskip2 hne]
          · intro hne
            rw [(hmatf t4).2.2.2.2.1, f4n, hskip3 hne, f2n]
          · intro hne
            rw [(hmatf t4).2.2.2.2.2, hskip4 hne, f3u, f2u]
theorem faceLoop_triangles (gv : List Coord3D) (gc : List RGBColor) (gn : List Coord3D)
    (gu : List Coord2D) (matIdx : Option Nat) (refs : FaceRefs) :
    ∀ (idxs : List Nat) (conv : ObjMeshConverter),
    ∃ T, (faceLoop gv gc gn gu matIdx refs idxs conv).1.mesh.triangles =
        conv.mesh.triangles ++ T ∧
      ((faceLoop gv gc gn gu matIdx refs idxs conv).2 = false → T.length = idxs.length) ∧
      ((faceLoop gv gc gn gu matIdx refs idxs conv).2 = true → T.length < idxs.length) ∧
      (∀ t ∈ T,
        (refs.colors.length ≠ refs.vertices.length → t.colors = none) ∧
        (refs.normals.length ≠ refs.vertices.length → t.normals = none) ∧
        (refs.uvs.length ≠ refs.vertices.length → t.uvs = none)) := by
  intro idxs
  induction idxs with
  | nil =>
    intro conv
    refine ⟨[], by simp [faceLoop], fun _ => rfl, ?_, ?_⟩
    · intro h
      simp [faceLoop] at h
    · intro t ht
      cases ht
  | cons i rest ih =>
    intro conv
    rcases faceLoop_cons_cases gv gc gn gu matIdx refs i rest conv with
      ⟨conv₁, heq, htri, -⟩ |
      ⟨tri, conv₁, heq, htri, -, -, -, -, -, -, -, hcol, hnor, huv⟩
    · refine ⟨[], ?_, ?_, ?_, ?_⟩
      · rw [heq]
        simpa using htri
      · rw [heq]
        intro h
        cases h
      · intro _
        simp
      · intro t ht
        cases ht
    · rcases ih (conv₁.AddTriangle tri) with ⟨T, hT, hf, ht2, hmem⟩
      refine ⟨tri :: T, ?_, ?_, ?_, ?_⟩
      · rw [heq, hT]
        rw [show (conv₁.AddTriangle tri).mesh.triangles = conv₁.mesh.triangles ++ [tri]
          from rfl, htri]
        simp
      · rw [heq]
        intro h
        rw [List.length_cons, List.length_cons, hf h]
      · rw [heq]
        intro h
        have := ht2 h
        rw [List.length_cons, List.length_cons]
        omega
      · intro t ht
        rcases List.mem_cons.mp ht with h | h
        · rw [h]
          exact ⟨hcol, hnor, huv⟩
        · exact hmem t h

theorem faceLoop_inRange (gv : List Coord3D) (gc : List RGBColor) (gn : List Coord3D)
    (gu : List Coord2D) (matIdx : Option Nat) (refs : FaceRefs) :
    ∀ (idxs : List Nat) (conv : ObjMeshConverter),
    (faceLoop gv gc gn gu matIdx refs idxs conv).2 = false →
    ∀ i ∈ idxs,
      inRangeB (refs.vertices.getD 0 none) gv.length = true ∧
      inRangeB (refs.vertices.getD (i + 1) none) gv.length = true ∧
      inRangeB (refs.vertices.getD (i + 2) none) gv.length = true := by
  intro idxs
  induction idxs with
  | nil =>
    intro conv _ i hi
    cases hi
  | cons j rest ih =>
    intro conv herr i hi
    rcases faceLoop_cons_cases gv gc gn gu matIdx refs j rest conv with
      ⟨conv₁, heq, -, -⟩ |
      ⟨tri, conv₁, heq, -, -, -, -, -, hr0, hr1, hr2, -, -, -⟩
    · rw [heq] at herr
      cases herr
    · rw [heq] at herr
      rcases List.mem_cons.mp hi with h | h
      · rw [h]
        exact ⟨hr0, hr1, hr2⟩
      · exact ih (conv₁.AddTriangle tri) herr i h

theorem faceLoop_noError (gv : List Coord3D) (gc : List RGBColor) (gn : List Coord3D)
    (gu : List Coord2D) (matIdx : Option Nat) (refs : FaceRefs) :
    ∀ (idxs : List Nat) (conv : ObjMeshConverter),
    (∀ i ∈ idxs, faceStageCond gv gc gn gu refs i) →
    (faceLoop gv gc gn gu matIdx refs idxs conv).2 = false := by
  intro idxs
  induction idxs with
  | nil =>
    intro conv _
    rfl
  | cons j rest ih =>
    intro conv hcond
    rcases faceLoop_cons_cases gv gc gn gu matIdx refs j rest conv with
      ⟨conv₁, heq, -, hnc⟩ |
      ⟨tri, conv₁, heq, -, -, -, -, -, -, -, -, -, -, -⟩
    · exact absurd (hcond j (List.mem_cons_self j rest)) hnc
    · rw [heq]
      exact ih (conv₁.AddTriangle tri) (fun i hi => hcond i (List.mem_cons_of_mem j hi))

theorem faceLoop_mono (gv : List Coord3D) (gc : List RGBColor) (gn : List Coord3D)
    (gu : List Coord2D) (matIdx : Option Nat) (refs : FaceRefs) :
    ∀ (idxs : List Nat) (conv : ObjMeshConverter),
    (faceLoop gv gc gn gu matIdx refs idxs conv).2 = false →
    ∀ h0 m, vlookup conv h0 = some m →
      vlookup (faceLoop gv gc gn gu matIdx refs idxs conv).1 h0 = some m := by
  intro idxs
  induction idxs with
  | nil =>
    intro conv _ h0 m hm
    exact hm
  | cons j rest ih =>
    intro conv herr h0 m hm
    rcases faceLoop_cons_cases gv gc gn gu matIdx refs j rest conv with
      ⟨conv₁, heq, -, -⟩ |
      ⟨tri, conv₁, heq, -, hmono, -, -, -, -, -, -, -, -, -⟩
    · rw [heq] at herr
      cases herr
    · rw [heq] at herr ⊢
      exact ih (conv₁.AddTriangle tri) herr h0 m (hmono h0 m hm)

theorem faceLoop_pattern (gv : List Coord3D) (gc : List RGBColor) (gn : List Coord3D)
    (gu : List Coord2D) (matIdx : Option Nat) (refs : FaceRefs) :
    ∀ (idxs : List Nat) (conv conv' : ObjMeshConverter),
    faceLoop gv gc gn gu matIdx refs idxs conv = (conv', false) →
    ∃ T, conv'.mesh.triangles = conv.mesh.triangles ++ T ∧ T.length = idxs.length ∧
      ∀ j, j < T.length →
        some ((T.getD j default).v0) = vlookup conv' (refs.vertices.getD 0 none) ∧
        some ((T.getD j default).v1) =
          vlookup conv' (refs.vertices.getD (idxs.getD j 0 + 1) none) ∧
        some ((T.getD j default).v2) =
          vlookup conv' (refs.vertices.getD (idxs.getD j 0 + 2) none) := by
  intro idxs
  induction idxs with
  | nil =>
    intro conv conv' h
    have h1 : conv = conv' := congrArg Prod.fst h
    subst h1
    refine ⟨[], by simp, rfl, ?_⟩
    intro j hj
    cases hj
  | cons i rest ih =>
    intro conv conv' h
    rcases faceLoop_cons_cases gv gc gn gu matIdx refs i rest conv with
      ⟨conv₁, heq, -, -⟩ |
      ⟨tri, conv₁, heq, htri, -, hv0, hv1, hv2, -, -, -, -, -, -⟩
    · rw [heq] at h
      have : true = false := congrArg Prod.snd h
      cases this
    · rw [heq] at h
      have herr : (faceLoop gv gc gn gu matIdx refs rest (conv₁.AddTriangle tri)).2 = false := by
        rw [h]
      rcases ih (conv₁.AddTriangle tri) conv' h with ⟨T, hT, hlen, hpat⟩
      have hfinal : ∀ h0 m, vlookup conv₁ h0 = some m → vlookup conv' h0 = some m := by
        intro h0 m hm
        have h2 : vlookup (conv₁.AddTriangle tri) h0 = some m := hm
        have h3 := faceLoop_mono gv gc gn gu matIdx refs rest (conv₁.AddTriangle tri)
          herr h0 m h2
        rw [h] at h3
        exact h3
      refine ⟨tri :: T, ?_, ?_, ?_⟩
      · rw [hT, show (conv₁.AddTriangle tri).mesh.triangles = conv₁.mesh.triangles ++ [tri]
          from rfl, htri]
        simp
      · rw [List.length_cons, List.length_cons, hlen]
      · intro j hj
        rcases j with _ | j
        · refine ⟨?_, ?_, ?_⟩
          · exact (hfinal _ tri.v0 hv0).symm
          · exact (hfinal _ tri.v1 hv1).symm
          · exact (hfinal _ tri.v2 hv2).symm
        · have hj2 : j < T.length := by
            rw [List.length_cons] at hj
            omega
          exact hpat j hj2

theorem lineLoop_spec (gv : List Coord3D) :
    ∀ (ps : List String) (conv : ObjMeshConverter),
    (lineLoop gv ps conv).2.1.mesh.lines = conv.mesh.lines ∧
    ((lineLoop gv ps conv).2.2 = false → ∀ p ∈ ps,
      inRangeB (GetRelativeIndex (parseInt10 ((splitOnChar '/' p).headD "")) gv.length)
        gv.length = true) := by
  intro ps
  induction ps with
  | nil =>
    intro conv
    refine ⟨rfl, ?_⟩
    intro _ p hp
    cases hp
  | cons p rest ih =>
    intro conv
    have hs := addVertex_isSome conv
      (GetRelativeIndex (parseInt10 ((splitOnChar '/' p).headD "")) gv.length) gv
    have hlines := addVertex_mesh_lines conv
      (GetRelativeIndex (parseInt10 ((splitOnChar '/' p).headD "")) gv.length) gv
    rcases hA : conv.AddVertex
        (GetRelativeIndex (parseInt10 ((splitOnChar '/' p).headD "")) gv.length) gv
      with ⟨oa, convA⟩
    rw [hA] at hs hlines
    rcases oa with _ | m
    · refine ⟨?_, ?_⟩
      · show (lineLoop gv (p :: rest) conv).2.1.mesh.lines = conv.mesh.lines
        simp only [lineLoop, hA]
        exact hlines
      · intro herr
        exfalso
        revert herr
        show (lineLoop gv (p :: rest) conv).2.2 = false → False
        simp only [lineLoop, hA]
        intro herr
        cases herr
    · rcases ih convA with ⟨ih1, ih2⟩
      refine ⟨?_, ?_⟩
      · show (lineLoop gv (p :: rest) conv).2.1.mesh.lines = conv.mesh.lines
        simp only [lineLoop, hA]
        rw [ih1, hlines]
      · intro herr q hq
        have herr2 : (lineLoop gv rest convA).2.2 = false := by
          revert herr
          show (lineLoop gv (p :: rest) conv).2.2 = false → _
          simp only [lineLoop, hA]
          intro herr
          exact herr
        rcases List.mem_cons.mp hq with h | h
        · rw [h, ← hs]
          rfl
        · exact ih2 herr2 q h

theorem ensure_fields (s : ObjState) :
    (ensureCurrentMesh s).globalVertices = s.globalVertices ∧
    (ensureCurrentMesh s).globalVertexColors = s.globalVertexColors ∧
    (ensureCurrentMesh s).globalNormals = s.globalNormals ∧
    (ensureCurrentMesh s).globalUvs = s.globalUvs ∧
    (ensureCurrentMesh s).currentMaterialIndex = s.currentMaterialIndex ∧
    (ensureCurrentMesh s).error = s.error := by
  unfold ensureCurrentMesh AddNewMesh
  by_cases h : s.currentMeshConverter.isNone
  · rw [if_pos h]
    rcases hm : mapGet s.meshNameToConverter "" with _ | i <;> simp [hm]
  · rw [if_neg h]
    exact ⟨rfl, rfl, rfl, rfl, rfl, rfl⟩

theorem currentConv_eq (s : ObjState) (conv : ObjMeshConverter)
    (h : currentConv s = some conv) :
    ∃ ci, s.currentMeshConverter = some ci ∧ s.meshes.get? ci = some conv := by
  unfold currentConv at h
  rcases hc : s.currentMeshConverter with _ | ci
  · rw [hc] at h
    cases h
  · rw [hc] at h
    exact ⟨ci, rfl, h⟩

theorem currentConv_set (s1 : ObjState) (ci : Nat) (c : ObjMeshConverter) (e : Bool)
    (hci : s1.currentMeshConverter = some ci) (hlt : ci < s1.meshes.length) :
    currentConv { s1 with meshes := s1.meshes.set ci c, error := e } = some c := by
  unfold currentConv
  have hfield : ({ s1 with meshes := s1.meshes.set ci c, error := e } :
      ObjState).currentMeshConverter = s1.currentMeshConverter := rfl
  rw [hfield, hci]
  show (s1.meshes.set ci c).get? ci = some c
  rw [List.get?_eq_getElem?]
  exact List.getElem?_set_self hlt

theorem processFaceCommand_result (s : ObjState) (ps : List String)
    (conv : ObjMeshConverter) (hc : currentConv (ensureCurrentMesh s) = some conv) :
    currentConv (ProcessFaceCommand s ps) =
      some (faceLoop (ensureCurrentMesh s).globalVertices
        (ensureCurrentMesh s).globalVertexColors (ensureCurrentMesh s).globalNormals
        (ensureCurrentMesh s).globalUvs (ensureCurrentMesh s).currentMaterialIndex
        (collectFaceRefs (ensureCurrentMesh s) ps)
        (List.range ((collectFaceRefs (ensureCurrentMesh s) ps).vertices.length - 2))
        conv).1 ∧
    (ProcessFaceCommand s ps).error =
      ((ensureCurrentMesh s).error ||
        (faceLoop (ensureCurrentMesh s).globalVertices
          (ensureCurrentMesh s).globalVertexColors (ensureCurrentMesh s).globalNormals
          (ensureCurrentMesh s).globalUvs (ensureCurrentMesh s).currentMaterialIndex
          (collectFaceRefs (ensureCurrentMesh s) ps)
          (List.range ((collectFaceRefs (ensureCurrentMesh s) ps).vertices.length - 2))
          conv).2) := by
  rcases currentConv_eq _ conv hc with ⟨ci, hci, hget⟩
  have hlt : ci < (ensureCurrentMesh s).meshes.length := by
    rw [List.get?_eq_getElem?] at hget
    exact (List.getElem?_eq_some.mp hget).1
  have hgetD : (ensureCurrentMesh s).meshes.getD ci default = conv := by
    rw [List.getD_eq_getElem?_getD, ← List.get?_eq_getElem?, hget]
    rfl
  have hred : ProcessFaceCommand s ps =
      { ensureCurrentMesh s with
          meshes := (ensureCurrentMesh s).meshes.set ci (faceLoop
            (ensureCurrentMesh s).globalVertices (ensureCurrentMesh s).globalVertexColors
            (ensureCurrentMesh s).globalNormals (ensureCurrentMesh s).globalUvs
            (ensureCurrentMesh s).currentMaterialIndex
            (collectFaceRefs (ensureCurrentMesh s) ps)
            (List.range ((collectFaceRefs (ensureCurrentMesh s) ps).vertices.length - 2))
            conv).1
          error := (ensureCurrentMesh s).error || (faceLoop
            (ensureCurrentMesh s).globalVertices (ensureCurrentMesh s).globalVertexColors
            (ensureCurrentMesh s).globalNormals (ensureCurrentMesh s).globalUvs
            (ensureCurrentMesh s).currentMaterialIndex
            (collectFaceRefs (ensureCurrentMesh s) ps)
            (List.range ((collectFaceRefs (ensureCurrentMesh s) ps).vertices.length - 2))
            conv).2 } := by
    rw [← hgetD]
    simp only [ProcessFaceCommand, hci]
  rw [hred]
  constructor
  · exact currentConv_set (ensureCurrentMesh s) ci _ _ hci hlt
  · rfl

theorem processLineCommand_result (s : ObjState) (ps : List String)
    (conv : ObjMeshConverter) (hc : currentConv (ensureCurrentMesh s) = some conv) :
    ∃ c', currentConv (ProcessLineCommand s ps) = some c' ∧
      c'.mesh.lines.length = conv.mesh.lines.length + 1 ∧
      (ProcessLineCommand s ps).error =
        ((ensureCurrentMesh s).error ||
          (lineLoop (ensureCurrentMesh s).globalVertices ps conv).2.2) := by
  rcases currentConv_eq _ conv hc with ⟨ci, hci, hget⟩
  have hlt : ci < (ensureCurrentMesh s).meshes.length := by
    rw [List.get?_eq_getElem?] at hget
    exact (List.getElem?_eq_some.mp hget).1
  have hgetD : (ensureCurrentMesh s).meshes.getD ci default = conv := by
    rw [List.getD_eq_getElem?_getD, ← List.get?_eq_getElem?, hget]
    rfl
  have hred : ProcessLineCommand s ps =
      { ensureCurrentMesh s with
          meshes := (ensureCurrentMesh s).meshes.set ci
            (((lineLoop (ensureCurrentMesh s).globalVertices ps conv).2.1).AddLine
              (applyLineMaterialIndex (ensureCurrentMesh s).currentMaterialIndex
                { vertices := (lineLoop (ensureCurrentMesh s).globalVertices ps conv).1 }))
          error := (ensureCurrentMesh s).error ||
            (lineLoop (ensureCurrentMesh s).globalVertices ps conv).2.2 } := by
    rw [← hgetD]
    simp only [ProcessLineCommand, hci]
  refine ⟨((lineLoop (ensureCurrentMesh s).globalVertices ps conv).2.1).AddLine
    (applyLineMaterialIndex (ensureCurrentMesh s).currentMaterialIndex
      { vertices := (lineLoop (ensureCurrentMesh s).globalVertices ps conv).1 }),
    ?_, ?_, ?_⟩
  · rw [hred]
    exact currentConv_set (ensureCurrentMesh s) ci _ _ hci hlt
  · show (((lineLoop (ensureCurrentMesh s).globalVertices ps conv).2.1).mesh.lines ++
      [_]).length = _
    rw [List.length_append, (lineLoop_spec (ensureCurrentMesh s).globalVertices ps conv).1]
    rfl
  · rw [hred]

/-- C10: the dependency resolver is idempotent per normalized name: a
second request whose path normalizes to the same base name returns the
same buffer and leaves the accessor (cache, used and missing lists,
callback invocation counter) unchanged; a cached binding survives any
later request sequence; and across an import each distinct requested
name contributes at most one entry to the used-files plus
missing-files bookkeeping. -/
theorem c10_dependency_lookup_idempotent :
    (∀ (fl : ImporterFileList) (a : ImporterFileAccessor) (p1 p2 : String),
      GetFileName p2 = GetFileName p1 →
      GetFileBuffer fl (GetFileBuffer fl a p1).2 p2 = GetFileBuffer fl a p1) ∧
    (∀ (fl : ImporterFileList) (a : ImporterFileAccessor) (ps : List String) (n : String)
      (b : Option FileData), mapGet a.fileBuffers n = some b →
      mapGet (requestAll fl a ps).fileBuffers n = some b) ∧
    (∀ (fl : ImporterFileList) (u0 m0 : List String) (ps : List String) (n : String),
      ((requestAll fl ⟨[], u0, m0, 0⟩ ps).usedFiles ++
        (requestAll fl ⟨[], u0, m0, 0⟩ ps).missingFiles).count n ≤
      (u0 ++ m0).count n + 1) := by
  have persist : ∀ (fl : ImporterFileList) (ps : List String) (a : ImporterFileAccessor)
      (n : String) (b : Option FileData), mapGet a.fileBuffers n = some b →
      mapGet (requestAll fl a ps).fileBuffers n = some b := by
    intro fl ps
    induction ps with
    | nil => intro a n b h; exact h
    | cons p rest ih =>
      intro a n b h
      unfold requestAll
      rw [List.foldl_cons]
      exact ih (GetFileBuffer fl a p).2 n b (getFileBuffer_preserves_binding fl a p n h)
  have countBound : ∀ (fl : ImporterFileList) (ps : List String) (a : ImporterFileAccessor)
      (n : String),
      ((requestAll fl a ps).usedFiles ++ (requestAll fl a ps).missingFiles).count n ≤
      (a.usedFiles ++ a.missingFiles).count n +
        (if (mapGet a.fileBuffers n).isSome then 0 else 1) := by
    intro fl ps
    induction ps with
    | nil =>
      intro a n
      unfold requestAll
      rw [List.foldl_nil]
      by_cases h : (mapGet a.fileBuffers n).isSome <;> simp [h]
    | cons p rest ih =>
      intro a n
      unfold requestAll
      rw [List.foldl_cons]
      calc ((requestAll fl (GetFileBuffer fl a p).2 rest).usedFiles ++
            (requestAll fl (GetFileBuffer fl a p).2 rest).missingFiles).count n ≤
          ((GetFileBuffer fl a p).2.usedFiles ++ (GetFileBuffer fl a p).2.missingFiles).count n +
            (if (mapGet (GetFileBuffer fl a p).2.fileBuffers n).isSome then 0 else 1) :=
          ih (GetFileBuffer fl a p).2 n
        _ ≤ _ := getFileBuffer_step_count fl a p n
  refine ⟨?_, ?_, ?_⟩
  · intro fl a p1 p2 hp
    by_cases hg : (mapGet a.fileBuffers (GetFileName p1)).isSome
    · rcases Option.isSome_iff_exists.mp hg with ⟨b, hb⟩
      rw [getFileBuffer_cached fl a p1 hb]
      exact getFileBuffer_cached fl a p2 (by rw [hp]; exact hb)
    · have hn : mapGet a.fileBuffers (GetFileName p1) = none :=
        Option.not_isSome_iff_eq_none.mp hg
      rcases getFileBuffer_new_fields fl a p1 hn with ⟨hfst, _, _, hbuf⟩
      have hb : mapGet (GetFileBuffer fl a p1).2.fileBuffers (GetFileName p2) =
          some (GetFileBuffer fl a p1).1 := by
        rw [hp, hbuf, hfst]
        exact mapGet_mapSet_self _ _ _
      rw [getFileBuffer_cached fl (GetFileBuffer fl a p1).2 p2 hb]
  · intro fl a ps n b h
    exact persist fl ps a n b h
  · intro fl u0 m0 ps n
    have h := countBound fl ps ⟨[], u0, m0, 0⟩ n
    simpa using h

/-- Witness for C10: a second request for the same name returns the
cached null result unchanged, and a cached binding survives a request. -/
theorem c10_witness :
    GetFileBuffer (ImporterFileList.mk [])
        (GetFileBuffer (ImporterFileList.mk []) ⟨[], [], [], 0⟩ "a.mtl").2 "a.mtl" =
      GetFileBuffer (ImporterFileList.mk []) ⟨[], [], [], 0⟩ "a.mtl" ∧
    mapGet (requestAll (ImporterFileList.mk []) ⟨[("a.mtl", none)], [], [], 0⟩
        ["b.mtl"]).fileBuffers "a.mtl" = some none := by
  constructor
  · exact c10_dependency_lookup_idempotent.1 (ImporterFileList.mk []) ⟨[], [], [], 0⟩
      "a.mtl" "a.mtl" rfl
  · exact c10_dependency_lookup_idempotent.2.1 (ImporterFileList.mk [])
      ⟨[("a.mtl", none)], [], [], 0⟩ ["b.mtl"] "a.mtl" none (by decide)

/-- C3 counterexample: the claim says every material directive other
than newmtl is silently ignored when no current material is set, and
it names mtllib explicitly. But mtllib does not check the current
material: with the current material still null, an mtllib directive
whose library resolves to a buffer containing a newmtl line adds a
material to the model. -/
theorem c3_counterexample_mtllib_without_material :
    ObjState.reset.currentMaterial = none ∧
    (ProcessLine (fun n => if n = "mat.mtl" then some (FileData.buffer ["newmtl alpha"]) else none)
        1 ObjState.reset "mtllib mat.mtl").materials.map (fun m => m.name) = ["alpha"] := by
  exact ⟨rfl, by decide⟩

/-- C3 amended: every material directive other than newmtl, usemtl and
mtllib has no effect on the parser state or the model when no current
material is set; usemtl and mtllib do not require a current material. -/
theorem c3_material_guard_amended :
    ∀ (cb : String → Option FileData) (recurse : ObjState → List String → ObjState)
      (s : ObjState) (keyword : String) (parameters : List String) (line : String),
      keyword ≠ "newmtl" → keyword ≠ "usemtl" → keyword ≠ "mtllib" →
      s.currentMaterial = none →
      (ProcessMaterialParameter cb recurse s keyword parameters line).2 = s := by
  intro cb recurse s keyword ps line h1 h2 h3 h4
  unfold ProcessMaterialParameter
  rw [if_neg h1, if_neg h2, if_neg h3]
  simp only [h4, updateCurrentMaterial, Option.isNone_none, eq_self_iff_true, true_or, if_true]
  split_ifs <;> rfl

/-- Witness for C3: a kd directive with no current material set leaves
the state unchanged. -/
theorem c3_witness :
    (ProcessMaterialParameter (fun _ => none) (fun st _ => st) ObjState.reset "kd"
      ["1", "0", "0"] "kd 1 0 0").2 = ObjState.reset :=
  c3_material_guard_amended (fun _ => none) (fun st _ => st) ObjState.reset "kd"
    ["1", "0", "0"] "kd 1 0 0" (by decide) (by decide) (by decide) rfl

/-- Witness for C4: the amended preservation statements evaluated at
concrete inputs. -/
theorem c4_witness :
    uniqueNamesCI ((ImporterFileList.mk
      [ImporterFile.make "a.obj" FileSource.url none]).AddFile
        (ImporterFile.make "b.mtl" FileSource.decompressed none)).files = true := by
  have h := c4_uniqueness_preservation.2.1
    (ImporterFileList.mk [ImporterFile.make "a.obj" FileSource.url none])
    (ImporterFile.make "b.mtl" FileSource.decompressed none)
    (by decide) (by decide) (by decide)
  exact h

theorem faceLoop_complete (gv : List Coord3D) (gc : List RGBColor) (gn : List Coord3D)
    (gu : List Coord2D) (matIdx : Option Nat) (refs : FaceRefs) (n : Nat)
    (conv : ObjMeshConverter)
    (hcond : ∀ i ∈ List.range n, faceStageCond gv gc gn gu refs i) :
    ∃ T, (faceLoop gv gc gn gu matIdx refs (List.range n) conv).1.mesh.triangles =
        conv.mesh.triangles ++ T ∧ T.length = n ∧
      ∀ j, j < T.length →
        some ((T.getD j default).v0) =
          vlookup (faceLoop gv gc gn gu matIdx refs (List.range n) conv).1
            (refs.vertices.getD 0 none) ∧
        some ((T.getD j default).v1) =
          vlookup (faceLoop gv gc gn gu matIdx refs (List.range n) conv).1
            (refs.vertices.getD (j + 1) none) ∧
        some ((T.getD j default).v2) =
          vlookup (faceLoop gv gc gn gu matIdx refs (List.range n) conv).1
            (refs.vertices.getD (j + 2) none) := by
  have hno := faceLoop_noError gv gc gn gu matIdx refs (List.range n) conv hcond
  have hpair : faceLoop gv gc gn gu matIdx refs (List.range n) conv =
      ((faceLoop gv gc gn gu matIdx refs (List.range n) conv).1, false) := by
    rw [← hno]
  rcases faceLoop_pattern gv gc gn gu matIdx refs (List.range n) conv
      (faceLoop gv gc gn gu matIdx refs (List.range n) conv).1 hpair with ⟨T, hT, hlen, hpat⟩
  rw [List.length_range] at hlen
  refine ⟨T, hT, hlen, ?_⟩
  intro j hj
  rcases hpat j hj with ⟨ha, hb, hc⟩
  have hjr : (List.range n).getD j 0 = j := by
    rw [List.getD_eq_getElem?_getD, List.getElem?_range (by rw [hlen] at hj; exact hj)]
    rfl
  rw [hjr] at hb hc
  exact ⟨ha, hb, hc⟩

/-- C2 counterexample: the claim says an out-of-range reference aborts
the current line's construction with no line built from it added to
any mesh. But ProcessLineCommand adds the collected line
unconditionally after the loop breaks: on "l 1 5" with one declared
vertex, the second reference is out of range, the parse is flagged as
failed, yet a truncated line holding the first vertex is still added
to the mesh. -/
theorem c2_counterexample_truncated_line :
    (ImportContent (fun _ => none) 1 ["v 0 0 0", "l 1 5"]).error = true ∧
    ((ImportContent (fun _ => none) 1 ["v 0 0 0", "l 1 5"]).meshes.map
      (fun c => c.mesh.lines.map (fun l => l.vertices))) = [[[0]]] := by
  decide

/-- C2 amended: an out-of-range reference flags the parse as failed
and every later line of the content is skipped (first conjunct), but
the current directive's construction is not fully discarded: a face
keeps the triangles emitted by the fan iterations before the failure
(second conjunct: on a fresh error strictly fewer than k-2 triangles
were appended, and they remain in the mesh), and a line directive
always appends one line built from the vertices collected before the
failure (third conjunct). -/
theorem c2_error_handling_amended :
    (∀ (step : ObjState → String → ObjState) (s : ObjState) (ls : List String),
      s.error = true → runLinesWith step s ls = s) ∧
    (∀ (s : ObjState) (ps : List String) (conv : ObjMeshConverter),
      currentConv (ensureCurrentMesh s) = some conv →
      (ensureCurrentMesh s).error = false →
      (ProcessFaceCommand s ps).error = true →
      ∃ conv' T, currentConv (ProcessFaceCommand s ps) = some conv' ∧
        conv'.mesh.triangles = conv.mesh.triangles ++ T ∧
        T.length < (collectFaceRefs (ensureCurrentMesh s) ps).vertices.length - 2) ∧
    (∀ (s : ObjState) (ps : List String) (conv : ObjMeshConverter),
      currentConv (ensureCurrentMesh s) = some conv →
      ∃ conv', currentConv (ProcessLineCommand s ps) = some conv' ∧
        conv'.mesh.lines.length = conv.mesh.lines.length + 1 ∧
        (ProcessLineCommand s ps).error =
          ((ensureCurrentMesh s).error ||
            (lineLoop (ensureCurrentMesh s).globalVertices ps conv).2.2)) := by
  refine ⟨?_, ?_, ?_⟩
  · intro step s ls h
    induction ls with
    | nil => rfl
    | cons l rest ih =>
      show List.foldl (fun s l => if s.error then s else step s l)
        (if s.error then s else step s l) rest = s
      simp only [h, if_true]
      exact ih
  · intro s ps conv hc herr0 herr
    rcases processFaceCommand_result s ps conv hc with ⟨h1, h2⟩
    rw [herr0, Bool.false_or] at h2
    rw [herr] at h2
    rcases faceLoop_triangles (ensureCurrentMesh s).globalVertices
      (ensureCurrentMesh s).globalVertexColors (ensureCurrentMesh s).globalNormals
      (ensureCurrentMesh s).globalUvs (ensureCurrentMesh s).currentMaterialIndex
      (collectFaceRefs (ensureCurrentMesh s) ps)
      (List.range ((collectFaceRefs (ensureCurrentMesh s) ps).vertices.length - 2)) conv with
      ⟨T, hT, -, hlt, -⟩
    refine ⟨_, T, h1, hT, ?_⟩
    have := hlt h2.symm
    rw [List.length_range] at this
    exact this
  · intro s ps conv hc
    exact processLineCommand_result s ps conv hc

/-- Witness for C2: the later-lines guard applied to an already-failed
state, and the line conjunct applied to the initial parser state. -/
theorem c2_witness :
    runLinesWith (fun s _ => s) { error := true } ["l 1 5"] =
      ({ error := true } : ObjState) ∧
    ∃ conv', currentConv (ProcessLineCommand ObjState.reset ["1", "5"]) = some conv' ∧
      conv'.mesh.lines.length =
        ((ensureCurrentMesh ObjState.reset).meshes.getD 0 default).mesh.lines.length + 1 ∧
      (ProcessLineCommand ObjState.reset ["1", "5"]).error =
        ((ensureCurrentMesh ObjState.reset).error ||
          (lineLoop (ensureCurrentMesh ObjState.reset).globalVertices ["1", "5"]
            ((ensureCurrentMesh ObjState.reset).meshes.getD 0 default)).2.2) :=
  ⟨c2_error_handling_amended.1 (fun s _ => s) { error := true } ["l 1 5"] rfl,
   c2_error_handling_amended.2.2 ObjState.reset ["1", "5"]
     ((ensureCurrentMesh ObjState.reset).meshes.getD 0 default) rfl⟩

/-- C6 counterexample: the claim promises exactly k-2 fan triangles
whenever all k vertex references resolve in range. But an attached
attribute stage can still abort the face: with three vertices and one
uv declared, the face f 1/1 2/9 3/1 has all vertex references in
range, yet its second uv reference is out of range, so the face emits
zero triangles and the parse is flagged as failed. -/
theorem c6_counterexample_uv_out_of_range :
    (ImportContent (fun _ => none) 1
      ["v 0 0 0", "v 1 0 0", "v 0 1 0", "vt 0 0", "f 1/1 2/9 3/1"]).error = true ∧
    ((ImportContent (fun _ => none) 1
      ["v 0 0 0", "v 1 0 0", "v 0 1 0", "vt 0 0", "f 1/1 2/9 3/1"]).meshes.map
      (fun c => c.mesh.triangles)) = [[]] := by
  decide

/-- C6 amended: when every reference a face's fan iterations touch is
in range (the vertex references, and the attribute references of each
attribute kind whose count equals the vertex reference count), the
face emits exactly k-2 triangles, and triangle j uses the mesh-local
indices of vertex references 0, j+1 and j+2 (the fan pattern); in
particular the quad f 1 2 3 4 produces exactly the two triangles
(0, 1, 2) and (0, 2, 3). -/
theorem c6_fan_triangulation_amended :
    (∀ (s : ObjState) (ps : List String) (conv : ObjMeshConverter),
      currentConv (ensureCurrentMesh s) = some conv →
      (∀ i ∈ List.range ((collectFaceRefs (ensureCurrentMesh s) ps).vertices.length - 2),
        faceStageCond (ensureCurrentMesh s).globalVertices
          (ensureCurrentMesh s).globalVertexColors (ensureCurrentMesh s).globalNormals
          (ensureCurrentMesh s).globalUvs (collectFaceRefs (ensureCurrentMesh s) ps) i) →
      ∃ conv' T, currentConv (ProcessFaceCommand s ps) = some conv' ∧
        conv'.mesh.triangles = conv.mesh.triangles ++ T ∧
        T.length = (collectFaceRefs (ensureCurrentMesh s) ps).vertices.length - 2 ∧
        ∀ j, j < T.length →
          some ((T.getD j default).v0) = vlookup conv'
            ((collectFaceRefs (ensureCurrentMesh s) ps).vertices.getD 0 none) ∧
          some ((T.getD j default).v1) = vlookup conv'
            ((collectFaceRefs (ensureCurrentMesh s) ps).vertices.getD (j + 1) none) ∧
          some ((T.getD j default).v2) = vlookup conv'
            ((collectFaceRefs (ensureCurrentMesh s) ps).vertices.getD (j + 2) none)) ∧
    ((ImportContent (fun _ => none) 1
      ["v 0 0 0", "v 1 0 0", "v 1 1 0", "v 0 1 0", "f 1 2 3 4"]).meshes.map
      (fun c => c.mesh.triangles.map (fun t => (t.v0, t.v1, t.v2)))) =
      [[(0, 1, 2), (0, 2, 3)]] := by
  constructor
  · intro s ps conv hc hcond
    rcases processFaceCommand_result s ps conv hc with ⟨h1, -⟩
    rcases faceLoop_complete (ensureCurrentMesh s).globalVertices
      (ensureCurrentMesh s).globalVertexColors (ensureCurrentMesh s).globalNormals
      (ensureCurrentMesh s).globalUvs (ensureCurrentMesh s).currentMaterialIndex
      (collectFaceRefs (ensureCurrentMesh s) ps)
      ((collectFaceRefs (ensureCurrentMesh s) ps).vertices.length - 2) conv hcond with
      ⟨T, hT, hlen, hpat⟩
    exact ⟨_, T, h1, hT, hlen, hpat⟩
  · decide

/-- Witness for C6: the fan conclusion for a quad face on a state with
four declared vertices, every hypothesis discharged concretely. -/
theorem c6_witness :
    ∃ (conv' : ObjMeshConverter) (T : List Triangle),
      currentConv (ProcessFaceCommand { globalVertices := [{}, {}, {}, {}] }
        ["1", "2", "3", "4"]) = some conv' ∧
      conv'.mesh.triangles =
        ((ensureCurrentMesh { globalVertices := [{}, {}, {}, {}] }).meshes.getD 0
          default).mesh.triangles ++ T ∧
      T.length = (collectFaceRefs
        (ensureCurrentMesh { globalVertices := [{}, {}, {}, {}] })
        ["1", "2", "3", "4"]).vertices.length - 2 ∧
      ∀ j, j < T.length →
        some ((T.getD j default).v0) = vlookup conv'
          ((collectFaceRefs (ensureCurrentMesh { globalVertices := [{}, {}, {}, {}] })
            ["1", "2", "3", "4"]).vertices.getD 0 none) ∧
        some ((T.getD j default).v1) = vlookup conv'
          ((collectFaceRefs (ensureCurrentMesh { globalVertices := [{}, {}, {}, {}] })
            ["1", "2", "3", "4"]).vertices.getD (j + 1) none) ∧
        some ((T.getD j default).v2) = vlookup conv'
          ((collectFaceRefs (ensureCurrentMesh { globalVertices := [{}, {}, {}, {}] })
            ["1", "2", "3", "4"]).vertices.getD (j + 2) none) :=
  c6_fan_triangulation_amended.1 { globalVertices := [{}, {}, {}, {}] }
    ["1", "2", "3", "4"]
    ((ensureCurrentMesh { globalVertices := [{}, {}, {}, {}] }).meshes.getD 0 default)
    rfl (by decide)

/-- C8: an attribute kind is attached to a face's triangles only when
its reference count equals the vertex reference count: whenever the
counts differ, every triangle the face appended to the mesh carries
none for that attribute, never a partial subset. -/
theorem c8_attribute_all_or_nothing (s : ObjState) (ps : List String)
    (conv : ObjMeshConverter) (hc : currentConv (ensureCurrentMesh s) = some conv) :
    ∃ conv' T, currentConv (ProcessFaceCommand s ps) = some conv' ∧
      conv'.mesh.triangles = conv.mesh.triangles ++ T ∧
      ∀ t ∈ T,
        ((collectFaceRefs (ensureCurrentMesh s) ps).colors.length ≠
          (collectFaceRefs (ensureCurrentMesh s) ps).vertices.length → t.colors = none) ∧
        ((collectFaceRefs (ensureCurrentMesh s) ps).normals.length ≠
          (collectFaceRefs (ensureCurrentMesh s) ps).vertices.length → t.normals = none) ∧
        ((collectFaceRefs (ensureCurrentMesh s) ps).uvs.length ≠
          (collectFaceRefs (ensureCurrentMesh s) ps).vertices.length → t.uvs = none) := by
  rcases processFaceCommand_result s ps conv hc with ⟨h1, -⟩
  rcases faceLoop_triangles (ensureCurrentMesh s).globalVertices
    (ensureCurrentMesh s).globalVertexColors (ensureCurrentMesh s).globalNormals
    (ensureCurrentMesh s).globalUvs (ensureCurrentMesh s).currentMaterialIndex
    (collectFaceRefs (ensureCurrentMesh s) ps)
    (List.range ((collectFaceRefs (ensureCurrentMesh s) ps).vertices.length - 2)) conv with
    ⟨T, hT, -, -, hmem⟩
  exact ⟨_, T, h1, hT, hmem⟩

/-- Witness for C8: the all-or-nothing conclusion for a plain face on
the initial parser state. -/
theorem c8_witness :
    ∃ (conv' : ObjMeshConverter) (T : List Triangle),
      currentConv (ProcessFaceCommand ObjState.reset ["1", "2", "3"]) = some conv' ∧
      conv'.mesh.triangles =
        ((ensureCurrentMesh ObjState.reset).meshes.getD 0 default).mesh.triangles ++ T ∧
      ∀ t ∈ T,
        ((collectFaceRefs (ensureCurrentMesh ObjState.reset) ["1", "2", "3"]).colors.length ≠
          (collectFaceRefs (ensureCurrentMesh ObjState.reset)
            ["1", "2", "3"]).vertices.length → t.colors = none) ∧
        ((collectFaceRefs (ensureCurrentMesh ObjState.reset) ["1", "2", "3"]).normals.length ≠
          (collectFaceRefs (ensureCurrentMesh ObjState.reset)
            ["1", "2", "3"]).vertices.length → t.normals = none) ∧
        ((collectFaceRefs (ensureCurrentMesh ObjState.reset) ["1", "2", "3"]).uvs.length ≠
          (collectFaceRefs (ensureCurrentMesh ObjState.reset)
            ["1", "2", "3"]).vertices.length → t.uvs = none) :=
  c8_attribute_all_or_nothing ObjState.reset ["1", "2", "3"]
    ((ensureCurrentMesh ObjState.reset).meshes.getD 0 default) rfl

/-- C9: within one mesh each distinct in-range global index of an
attribute kind is mapped to exactly one mesh-local index. Stated over
GetMeshIndex, which all four attribute kinds of ObjMeshConverter
instantiate: on first reference (no binding yet) the call copies the
global value into the mesh through the adder and records the new
binding; a later reference to a bound index returns the bound
mesh-local index and leaves both the map and the mesh unchanged; and
any call preserves every existing binding. The final conjunct
instantiates this at the vertex kind of the converter. -/
theorem c9_global_to_local_mapping {α : Type} [inst : Inhabited α] (gi : Int)
    (vals : List α) (m0 : List (Nat × Nat)) (adder : α → Mesh → Nat × Mesh) (mesh : Mesh)
    (h0 : 0 ≤ gi) (h1 : gi < (vals.length : Int)) :
    (mapGet m0 gi.toNat = none →
      GetMeshIndex (some gi) vals m0 adder mesh =
        (some (adder (vals.getD gi.toNat default) mesh).1,
         mapSet m0 gi.toNat (adder (vals.getD gi.toNat default) mesh).1,
         (adder (vals.getD gi.toNat default) mesh).2)) ∧
    (∀ m, mapGet m0 gi.toNat = some m →
      GetMeshIndex (some gi) vals m0 adder mesh = (some m, m0, mesh)) ∧
    (∀ (g : Option Int) (k m : Nat), mapGet m0 k = some m →
      mapGet (GetMeshIndex g vals m0 adder mesh).2.1 k = some m) ∧
    (∀ (c : ObjMeshConverter) (gj : Int) (gv : List Coord3D), 0 ≤ gj →
      gj < (gv.length : Int) →
      (mapGet c.globalToMeshVertices gj.toNat = none →
        (c.AddVertex (some gj) gv).1 = some c.mesh.vertices.length ∧
        (c.AddVertex (some gj) gv).2.mesh.vertices =
          c.mesh.vertices ++ [gv.getD gj.toNat default] ∧
        vlookup (c.AddVertex (some gj) gv).2 (some gj) =
          some c.mesh.vertices.length) ∧
      (∀ m, vlookup c (some gj) = some m → c.AddVertex (some gj) gv = (some m, c))) := by
  refine ⟨?_, ?_, ?_, ?_⟩
  · intro hm
    exact GetMeshIndex_miss gi vals m0 adder mesh h0 h1 hm
  · intro m hm
    exact GetMeshIndex_hit gi vals m0 adder mesh m h0 h1 hm
  · intro g k m hm
    exact GetMeshIndex_preserves_mapGet g vals m0 adder mesh k m hm
  · intro c gj gv hg0 hg1
    exact ⟨fun hm => addVertex_miss c gj gv hg0 hg1 hm,
           fun m hm => addVertex_hit c gj gv m hg1 hm⟩

/-- Witness for C9: a first reference creates the binding and copies
the value; a second reference to a bound index returns the bound
mesh-local index with map and mesh untouched. -/
theorem c9_witness :
    GetMeshIndex (some 0) [({} : Coord3D)] [] (fun v m => m.AddVertex v) ({} : Mesh) =
      (some 0, [(0, 0)], ({ vertices := [{}] } : Mesh)) ∧
    GetMeshIndex (some 0) [({} : Coord3D)] [(0, 5)] (fun v m => m.AddVertex v) ({} : Mesh) =
      (some 5, [(0, 5)], ({} : Mesh)) := by
  constructor
  · exact (c9_global_to_local_mapping 0 [({} : Coord3D)] [] (fun v m => m.AddVertex v)
      ({} : Mesh) (by decide) (by decide)).1 rfl
  · exact (c9_global_to_local_mapping 0 [({} : Coord3D)] [(0, 5)] (fun v m => m.AddVertex v)
      ({} : Mesh) (by decide) (by decide)).2.1 5 rfl

end O3DV
